import Mathlib

/-!
Verification of the product read service (`src/modules/product/services/product-read.service.ts`):
a shallow embedding of the search/cache subsystem (tag sanitizer, query escaper, index schema
manager, full/incremental sync, query planner, result cache) together with theorems settling
the spec claims.

Conventions of the embedding:
* JavaScript strings are Lean `String`s; `.length` is modelled at UTF-16 code-unit granularity
  (`utf16Len`) where the source reads `.length`.
* JavaScript numbers are `Int` (the service only ever compares, sorts, and multiplies integral
  request parameters); `NaN`/`undefined` appear where the source can produce them and are
  modelled by dedicated constructors.
* Optional / possibly-`undefined` fields are `Option`; JS truthiness of a string is
  "present and nonempty", of a number "present and nonzero".
* Library calls (`decodeURIComponent`, `JSON.parse`, `crypto.md5`, Redis, Prisma) are oracles:
  function-typed parameters whose failure is an `Option`/`Except` miss, so every theorem is
  universally quantified over their behaviour.
-/

/-- JavaScript whitespace class `\s` (also the character set removed by
`String.prototype.trim`): space, tab, LF, VT, FF, CR, NBSP, and the Unicode
space separators plus BOM. -/
def jsWs (c : Char) : Bool :=
  let n := c.toNat
  n == 32 || n == 9 || n == 10 || n == 11 || n == 12 || n == 13 || n == 160 ||
  n == 0x1680 || (0x2000 ≤ n && n ≤ 0x200A) || n == 0x2028 || n == 0x2029 ||
  n == 0x202F || n == 0x205F || n == 0x3000 || n == 0xFEFF

/-- JavaScript line terminators, the characters NOT matched by `.` in a regex. -/
def isLineTerm (c : Char) : Bool :=
  let n := c.toNat
  n == 10 || n == 13 || n == 0x2028 || n == 0x2029

/-- The character class stripped by `cleanSystemTags` step C
(source line 76: `/[{}()\[\]|@!<>"`+backtick+quote+backslash+`]/g`). -/
def dangerTag (c : Char) : Bool :=
  let n := c.toNat
  n == 123 || n == 125 || n == 40 || n == 41 || n == 91 || n == 93 || n == 124 ||
  n == 64 || n == 33 || n == 60 || n == 62 || n == 34 || n == 96 || n == 39 || n == 92

/-- The character class stripped by `sanitizeTagKeyword`
(source line 95: braces, pipe, at, star, parens, backslash, brackets). -/
def dangerKw (c : Char) : Bool :=
  let n := c.toNat
  n == 123 || n == 125 || n == 124 || n == 64 || n == 42 || n == 40 || n == 41 ||
  n == 92 || n == 91 || n == 93

/-- Allow-list of `escapeRediSearchText` (source line 91): ASCII alphanumerics,
`\s`, the U+00C0..U+1EF9 letter range, and hyphen.  Every other character gets a
backslash prefixed. -/
def allowChar (c : Char) : Bool :=
  let n := c.toNat
  (97 ≤ n && n ≤ 122) || (65 ≤ n && n ≤ 90) || (48 ≤ n && n ≤ 57) || jsWs c ||
  (0xC0 ≤ n && n ≤ 0x1EF9) || n == 45

/-- `l` starts with the pattern `pat` (character-wise). -/
def startsWithL : List Char → List Char → Bool
  | _, [] => true
  | [], _ :: _ => false
  | c :: cs, d :: ds => c == d && startsWithL cs ds

/-- First index (0-based) at which `pat` occurs as a contiguous sublist, if any. -/
def firstSubIdx (pat : List Char) : List Char → Option Nat
  | [] => if startsWithL [] pat then some 0 else none
  | l@(_ :: t) =>
    if startsWithL l pat then some 0 else (firstSubIdx pat t).map (· + 1)

/-- JS `String.prototype.includes` (substring containment). -/
def containsSub (s pat : String) : Bool :=
  (firstSubIdx pat.data s.data).isSome

/-- JS `String.prototype.indexOf` for a substring: index or `-1`. -/
def strIndexOfSub (s pat : String) : Int :=
  match firstSubIdx pat.data s.data with
  | some i => (i : Int)
  | none => -1

/-- JS `String.prototype.length` counts UTF-16 code units: astral code points
count twice. -/
def utf16Len (s : String) : Nat :=
  s.data.foldl (fun n c => n + (if c.toNat < 65536 then 1 else 2)) 0

/-- JS `trim()` on a character list: drop `jsWs` from both ends. -/
def jsTrimL (l : List Char) : List Char :=
  List.rdropWhile jsWs (l.dropWhile jsWs)

/-- JS `trim()` on a string. -/
def jsTrimStr (s : String) : String :=
  String.mk (jsTrimL s.data)

/-- Worker of `collapseWs`: `inRun` records whether the previous character
belonged to a whitespace run whose single replacement space is already
emitted. -/
def collapseWsAux : Bool → List Char → List Char
  | _, [] => []
  | inRun, c :: t =>
    if jsWs c then
      if inRun then collapseWsAux true t else ' ' :: collapseWsAux true t
    else c :: collapseWsAux false t

/-- JS `replace(/\s+/g, ' ')`: every maximal whitespace run becomes one space. -/
def collapseWs (l : List Char) : List Char :=
  collapseWsAux false l

/-- Worker of `splitWsStr`: `some acc` holds the reversed current word,
`none` means we are inside a separator run. -/
def splitWsGo : Option (List Char) → List Char → List (List Char)
  | some acc, [] => [acc.reverse]
  | none, [] => [[]]
  | some acc, c :: t =>
    if jsWs c then acc.reverse :: splitWsGo none t else splitWsGo (some (c :: acc)) t
  | none, c :: t =>
    if jsWs c then splitWsGo none t else splitWsGo (some [c]) t

/-- JS `split(/\s+/)` on a string: split on maximal whitespace runs (a
leading run yields a leading empty element, a trailing run a trailing empty
element, as in JS). -/
def splitWsStr (s : String) : List String :=
  (splitWsGo (some []) s.data).map String.mk

/-- First-seen-wins deduplication, as `Array.from(new Set(xs))` produces. -/
def dedupFirstAux (seen : List String) : List String → List String
  | [] => []
  | x :: t =>
    if seen.contains x then dedupFirstAux seen t
    else x :: dedupFirstAux (x :: seen) t

/-- `Array.from(new Set(xs))`: distinct elements in first-occurrence order. -/
def dedupFirst (l : List String) : List String :=
  dedupFirstAux [] l

-- ===========================================================================
-- Query Escaper (source lines 90-96)
-- ===========================================================================

/-- `sanitizeTagKeyword` (source lines 94-96): replace every tag-query
metacharacter by a space, trim, then collapse whitespace runs to single spaces. -/
def sanitizeTagKeyword (s : String) : String :=
  String.mk (collapseWs (jsTrimL (s.data.map (fun c => if dangerKw c then ' ' else c))))

/-- `escapeRediSearchText` (source lines 90-92): prefix a backslash to every
character outside the allow-list, then trim. -/
def escapeRediSearchText (s : String) : String :=
  String.mk (jsTrimL (s.data.flatMap (fun c => if allowChar c then [c] else [Char.ofNat 92, c])))

-- ===========================================================================
-- Tag Sanitizer (source lines 47-84)
-- ===========================================================================

/-- A JavaScript value as far as the tag pipeline can observe it: a string, an
array, or anything else (number, boolean, null, object). -/
inductive JsVal
  | str (s : String)
  | arr (elts : List JsVal)
  | other
  deriving Repr

/-- `isMarkerAt tail l i`: the regex alternative `(\?|&)` followed by the
literal `tail` matches at position `i` of `l`. -/
def isMarkerAt (tail : List Char) (l : List Char) (i : Nat) : Bool :=
  match l.drop i with
  | c :: rest => (c == '?' || c == '&') && startsWithL rest tail
  | [] => false

/-- One JS `str.replace(/.*(\?|&)tail/, '')` step (source line 73, with
`tail` being `q=` or `keyword=`).  A JS regex chooses the leftmost match
start, and the greedy `.*` (which cannot cross a line terminator) then
extends the match to the last reachable marker occurrence; the match is
replaced by the empty string. -/
def stripUrlMarker (tail : List Char) (l : List Char) : List Char :=
  let occs := (List.range l.length).filter (fun i => isMarkerAt tail l i)
  match occs with
  | [] => l
  | i0 :: _ =>
    -- leftmost start of `.*`: just after the last line terminator before the
    -- first marker occurrence (or the beginning of the string)
    let p := match ((List.range i0).filter
        (fun j => isLineTerm (l.getD j 'x'))).getLast? with
      | some j => j + 1
      | none => 0
    -- the first line terminator at or after `p` bounds the greedy `.*`
    let firstLT := match ((List.range l.length).filter
        (fun j => p ≤ j && isLineTerm (l.getD j 'x'))).head? with
      | some j => j
      | none => l.length
    match (occs.filter (fun i => i < firstLT)).getLast? with
    | some em => l.take p ++ l.drop (em + 1 + tail.length)
    | none => l

/-- Steps C and D of the per-candidate cleaning (source lines 76-79):
replace the dangerous characters by spaces, trim, collapse whitespace runs. -/
def cleanTagCore (m : List Char) : List Char :=
  collapseWs (jsTrimL (m.map (fun c => if dangerTag c then ' ' else c)))

/-- The per-candidate cleaning of `cleanSystemTags` (source lines 65-80):
non-strings become empty; strings are URL-decoded (`dec` models
`decodeURIComponent`, `none` = throw, in which case the original is kept),
stripped of a `.*(\?|&)q=` and then a `.*(\?|&)keyword=` prefix, have the
dangerous characters replaced by spaces, and are trimmed with whitespace runs
collapsed. -/
def cleanOneTag (dec : String → Option String) (v : JsVal) : String :=
  match v with
  | .str tag =>
    let c1 := match dec tag with
      | some d => d
      | none => tag
    let c2 := stripUrlMarker "q=".data c1.data
    let c3 := stripUrlMarker "keyword=".data c2
    String.mk (cleanTagCore c3)
  | _ => ""

/-- Step 1 of `cleanSystemTags` (source lines 50-60): normalize the input
into a candidate list — an array as-is; a string is `JSON.parse`d (`jp`
models `JSON.parse`, `none` = throw) and used when it yields an array,
dropped when it yields a non-array, comma-split when parsing throws;
anything else gives no candidates. -/
def tagsOfInput (jp : String → Option JsVal) (input : JsVal) : List JsVal :=
  match input with
  | .arr xs => xs
  | .str s =>
    match jp s with
    | some (.arr xs) => xs
    | some _ => []
    | none => (s.splitOn ",").map JsVal.str
  | .other => []

/-- `cleanSystemTags`, list form (source lines 47-83 before the final join):
normalize, clean each candidate, keep the nonempty ones shorter than 50
UTF-16 units, and deduplicate first-seen. -/
def cleanSystemTagsList (dec : String → Option String) (jp : String → Option JsVal)
    (input : JsVal) : List String :=
  let tags := tagsOfInput jp input
  if tags.isEmpty then []
  else
    dedupFirst (((tags.map (cleanOneTag dec)).filter
      (fun t => 0 < utf16Len t && utf16Len t < 50)))

/-- `cleanSystemTags` (source lines 47-84): the comma-join of the cleaned list. -/
def cleanSystemTags (dec : String → Option String) (jp : String → Option JsVal)
    (input : JsVal) : String :=
  String.intercalate "," (cleanSystemTagsList dec jp input)

-- ===========================================================================
-- JS number / Redis reply modelling (for the Query Planner)
-- ===========================================================================

/-- A JS number as the planner can produce it: an integer or `NaN`. -/
inductive JNum
  | int (n : Int)
  | nan
  deriving Repr, DecidableEq

/-- An element of a raw Redis reply array, as seen through `ioredis.call`:
a number, `NaN`, a string, a nested array, JS `undefined` (out-of-range
index), or a Redis null. -/
inductive Resp
  | num (n : Int)
  | nanNum
  | str (s : String)
  | arr (elts : List Resp)
  | undef
  | nil
  deriving Repr

/-- JS truthiness of a reply element. -/
def respTruthy : Resp → Bool
  | .num n => n != 0
  | .nanNum => false
  | .str s => s != ""
  | .arr _ => true
  | .undef => false
  | .nil => false

/-- The JS `.length` property where it is a number (arrays and strings);
`none` models `undefined`. -/
def respLenNum : Resp → Option Nat
  | .arr l => some l.length
  | .str s => some (utf16Len s)
  | _ => none

/-- `fields.indexOf('json')` as the parse loop performs it: array `indexOf`
uses strict equality (only the string `"json"` can match); a string receives
substring `indexOf`.  Other shapes are unreachable behind the
`fields && fields.length >= 2` guard. -/
def respIndexOfJson : Resp → Int
  | .arr l =>
    match l.findIdx? (fun e => match e with | .str s => s == "json" | _ => false) with
    | some i => (i : Int)
    | none => -1
  | .str s => strIndexOfSub s "json"
  | _ => -1

/-- JS indexing `x[i]` on a reply element: array element, single-character
string, or `undefined`. -/
def respElem : Resp → Int → Resp
  | .arr l, i => if i < 0 then .undef else l.getD i.toNat .undef
  | .str s, i =>
    if i < 0 then .undef
    else match s.data.get? i.toNat with
      | some c => .str (String.mk [c])
      | none => .undef
  | _, _ => .undef

mutual

/-- JS `String(x)` coercion of a reply element (arrays join with commas). -/
def respToString : Resp → String
  | .num n => toString n
  | .nanNum => "NaN"
  | .str s => s
  | .arr l => String.intercalate "," (respListToString l)
  | .undef => "undefined"
  | .nil => "null"

/-- `String(x)` on each element of an array. -/
def respListToString : List Resp → List String
  | [] => []
  | x :: t => respToString x :: respListToString t

end

/-- JS `Number(s)` for a string, restricted to the integer numerals the
planner can meet (fractional, hex, exponent and `Infinity` numerals are
modelled as `NaN`; the empty / all-whitespace string is `0`). -/
def jsNumberOfString (s : String) : JNum :=
  let t := jsTrimL s.data
  if t.isEmpty then .int 0
  else
    match t with
    | '-' :: ds =>
      if !ds.isEmpty && ds.all Char.isDigit then
        .int (-(ds.foldl (fun n c => n * 10 + ((c.toNat : Int) - 48)) 0))
      else .nan
    | '+' :: ds =>
      if !ds.isEmpty && ds.all Char.isDigit then
        .int (ds.foldl (fun n c => n * 10 + ((c.toNat : Int) - 48)) 0)
      else .nan
    | ds =>
      if ds.all Char.isDigit then
        .int (ds.foldl (fun n c => n * 10 + ((c.toNat : Int) - 48)) 0)
      else .nan

/-- JS `Number(x)` coercion of a reply element (used implicitly by the `/` in
`Math.ceil(total / limit)`). -/
def respToNumJs : Resp → JNum
  | .num n => .int n
  | .nanNum => .nan
  | .str s => jsNumberOfString s
  | .arr l => jsNumberOfString (String.intercalate "," (respListToString l))
  | .undef => .nan
  | .nil => .int 0

/-- Ceiling division on integers (`Math.ceil(a / b)` for `b ≥ 1`). -/
def ceilD (a b : Int) : Int :=
  Int.ediv (a + b - 1) b

/-- `Math.ceil(total / limit)` where `total` is a raw reply element: a number
when the coercion yields one, `NaN` otherwise. -/
def jsCeilDivResp (total : Resp) (limit : Int) : Resp :=
  match respToNumJs total with
  | .int a => .num (ceilD a limit)
  | .nan => .nanNum

-- ===========================================================================
-- Index Schema Manager (source lines 98-145)
-- ===========================================================================

/-- External outcomes `ensureSearchIndex` depends on: the `FT.INFO` reply
(`none` models both an error — absorbed by `.catch(() => null)` — and a null
reply), and the possible failure messages of `FT.DROPINDEX` and `FT.CREATE`.
Full Sync never throws (it has its own catch-all, source line 204). -/
structure EnsureEnv where
  info : Option String
  dropErr : Option String
  createErr : Option String

/-- The observable effects of one `ensureSearchIndex` run. -/
structure EnsureOutcome where
  createdIndex : Bool
  droppedIndex : Bool
  ranFullSync : Bool
  loggedError : Bool
  deriving Repr, DecidableEq

/-- `createSearchIndex` (source lines 121-145): attempt `FT.CREATE`; on
success run Full Sync; on failure log an error unless the message contains
`already exists` (a creation race, treated as success — but note the sync
call is skipped either way because the throw leaves the `try` block). -/
def createSearchIndexModel (env : EnsureEnv) : EnsureOutcome :=
  match env.createErr with
  | none => { createdIndex := true, droppedIndex := false, ranFullSync := true, loggedError := false }
  | some m =>
    { createdIndex := false, droppedIndex := false, ranFullSync := false,
      loggedError := !containsSub m "already exists" }

/-- `ensureSearchIndex` (source lines 98-119): absent index (or failed
`FT.INFO`) → create; present but with a metadata string lacking the substring
`rating` or lacking `location` → drop and recreate; otherwise keep.  Every
error is caught and logged; the function never throws. -/
def ensureSearchIndexModel (env : EnsureEnv) : EnsureOutcome :=
  match env.info with
  | none => createSearchIndexModel env
  | some infoStr =>
    if !containsSub infoStr "rating" || !containsSub infoStr "location" then
      match env.dropErr with
      | some _ =>
        { createdIndex := false, droppedIndex := false, ranFullSync := false, loggedError := true }
      | none =>
        { createSearchIndexModel env with droppedIndex := true }
    else
      { createdIndex := false, droppedIndex := false, ranFullSync := false, loggedError := false }

-- ===========================================================================
-- Full Sync / Incremental Sync (source lines 147-251)
-- ===========================================================================

/-- A catalog record as both sync paths fetch it (Full Sync selects the named
fields plus `shop.city`; Incremental Sync re-fetches the whole row including
`shop.city`).  `shopCity` is `none` when the shop or its city is missing. -/
structure ProductRow where
  id : String
  name : String
  price : Int
  originalPrice : Option Int
  salesCount : Option Int
  status : String
  slug : String
  images : JsVal
  systemTags : JsVal
  rating : Option Int
  shopCity : Option String
  createdAt : Int
  deriving Repr

/-- The JSON mirror payload both sync paths store under the `json` field
(`JSON.stringify` drops a key whose value is `undefined`, hence the
`Option` for `location`). -/
structure FrontendJson where
  id : String
  name : String
  slug : String
  price : Int
  originalPrice : Int
  images : List JsVal
  salesCount : Int
  location : Option String
  deriving Repr

/-- The payload attached to a suggestion entry. -/
structure SugPayload where
  id : String
  slug : String
  price : Int
  image : JsVal
  deriving Repr

/-- One `FT.SUGADD` upsert: name, score, payload. -/
structure Suggestion where
  name : String
  score : Int
  payload : SugPayload
  deriving Repr

/-- The field map written by `hset` for one item.  `createdAt` is `none` when
the writer put no such field in the map. -/
structure IndexEntryMap where
  name : String
  price : Int
  salesCount : Int
  rating : Int
  location : String
  status : String
  id : String
  slug : String
  json : FrontendJson
  systemTags : String
  createdAt : Option JNum
  deriving Repr

/-- `Array.isArray(p.images) && p.images.length > 0 ? p.images[0] : ''`
(source lines 165 and 220). -/
def imageOf (images : JsVal) : JsVal :=
  match images with
  | .arr (x :: _) => x
  | _ => .str ""

/-- `p.shop?.city ? sanitizeTagKeyword(p.shop.city) : 'Khac'`
(source lines 169 and 222): an absent or empty city falls to the sentinel. -/
def locationOf (shopCity : Option String) : String :=
  match shopCity with
  | some c => if c != "" then sanitizeTagKeyword c else "Khac"
  | none => "Khac"

/-- The per-item transformation of Full Sync (`syncAllProductsToRedis`,
source lines 163-198): the hset field map — whose `createdAt` value is
`new Date(p.createdAt).getTime()`, which is `NaN` because the `findMany`
select list (lines 152-157) does not include `createdAt`, so `p.createdAt`
is `undefined` at run time — and the suggestion entry. -/
def fullSyncEntry (dec : String → Option String) (jp : String → Option JsVal)
    (p : ProductRow) : IndexEntryMap × Suggestion :=
  let image := imageOf p.images
  let tagsString := cleanSystemTags dec jp p.systemTags
  let location := locationOf p.shopCity
  let frontendJson : FrontendJson :=
    { id := p.id, name := p.name, slug := p.slug, price := p.price,
      originalPrice := (p.originalPrice.getD 0), images := [image],
      salesCount := (p.salesCount.getD 0), location := p.shopCity }
  let entry : IndexEntryMap :=
    { name := p.name, price := p.price, salesCount := (p.salesCount.getD 0),
      rating := (p.rating.getD 0), location := location, status := p.status,
      id := p.id, slug := p.slug, json := frontendJson, systemTags := tagsString,
      createdAt := some JNum.nan }
  let score := match p.salesCount with
    | some v => if v > 0 then v else 1
    | none => 1
  (entry, { name := p.name, score := score,
            payload := { id := p.id, slug := p.slug, price := p.price, image := image } })

/-- `syncAllProductsToRedis` (source lines 147-207), restricted to its pure
content: for the ACTIVE rows fetched, the keyed entries and suggestions
written through the pipeline (the suggestion dictionary is cleared first). -/
def syncAllProductsToRedis (dec : String → Option String) (jp : String → Option JsVal)
    (rows : List ProductRow) : List (String × IndexEntryMap × Suggestion) :=
  rows.map (fun p => ("product:" ++ p.id, fullSyncEntry dec jp p))

/-- The per-item transformation of Incremental Sync (`syncProductToRedis`,
source lines 219-250) for a re-fetched row: its hset field map — which has no
`createdAt` key (lines 235-246) — and the suggestion entry. -/
def incSyncEntry (dec : String → Option String) (jp : String → Option JsVal)
    (p : ProductRow) : IndexEntryMap × Suggestion :=
  let image := imageOf p.images
  let tagsString := cleanSystemTags dec jp p.systemTags
  let location := locationOf p.shopCity
  let frontendJson : FrontendJson :=
    { id := p.id, name := p.name, slug := p.slug, price := p.price,
      originalPrice := (p.originalPrice.getD 0), images := [image],
      salesCount := (p.salesCount.getD 0), location := p.shopCity }
  let entry : IndexEntryMap :=
    { name := p.name, price := p.price, salesCount := (p.salesCount.getD 0),
      rating := (p.rating.getD 0), location := location, status := p.status,
      id := p.id, slug := p.slug, json := frontendJson, systemTags := tagsString,
      createdAt := none }
  let score := match p.salesCount with
    | some v => if v > 0 then v else 1
    | none => 1
  (entry, { name := p.name, score := score,
            payload := { id := p.id, slug := p.slug, price := p.price, image := image } })

/-- `syncProductToRedis` (source lines 209-251): re-fetch the full record by
id (`fetched` is the `findUnique` result); a missing record is a silent no-op
(line 217), otherwise write the single keyed entry and suggestion. -/
def syncProductToRedis (dec : String → Option String) (jp : String → Option JsVal)
    (fetched : Option ProductRow) : Option (String × IndexEntryMap × Suggestion) :=
  fetched.map (fun p => ("product:" ++ p.id, incSyncEntry dec jp p))

-- ===========================================================================
-- Query Planner (`findAllPublic`, source lines 256-436)
-- ===========================================================================

/-- The read request DTO (source lines 10-23).  `categoryId`, `categorySlug`
and `brandId` are accepted but never read by `findAllPublic`'s body. -/
structure FindAllQuery where
  page : Option Int := none
  limit : Option Int := none
  search : Option String := none
  categoryId : Option String := none
  categorySlug : Option String := none
  brandId : Option Int := none
  minPrice : Option Int := none
  maxPrice : Option Int := none
  rating : Option Int := none
  sort : Option String := none
  tag : Option String := none
  locations : Option (List String) := none
  deriving Repr

/-- JS truthiness of an optional string. -/
def truthyS : Option String → Bool
  | some s => s != ""
  | none => false

/-- JS truthiness of an optional number. -/
def truthyN : Option Int → Bool
  | some v => v != 0
  | none => false

/-- `Number(x) || d` for an optional integer: missing or zero falls to `d`. -/
def jsNumOr (x : Option Int) (d : Int) : Int :=
  match x with
  | some v => if v == 0 then d else v
  | none => d

/-- `query.search ? query.search.trim() : ''` (source line 266). -/
def searchTrim (q : FindAllQuery) : String :=
  match q.search with
  | some s => if s != "" then jsTrimStr s else ""
  | none => ""

/-- The index-path decision (source line 269): keyword, or truthy tag /
minPrice / maxPrice / rating, or a nonempty locations list. -/
def shouldUseRedisB (q : FindAllQuery) : Bool :=
  decide (0 < (searchTrim q).length) || truthyS q.tag || truthyN q.minPrice ||
  truthyN q.maxPrice || truthyN q.rating ||
  (match q.locations with
   | some l => decide (0 < l.length)
   | none => false)

/-- One conjunct of the index query string, in the order the code appends
them.  `priceC none hi` renders `-Infinity` as the lower bound, `priceC lo
none` renders `Infinity` as the upper bound, exactly as the template literal
does. -/
inductive FtClause
  | statusActive
  | textCond (nameTokens : String) (tagKw : String)
  | tagC (t : String)
  | locC (joined : String)
  | priceC (lo hi : Option Int)
  | ratingC (r : Int)
  deriving Repr, DecidableEq

/-- The free-text condition block (source lines 280-288): present when the
trimmed keyword is nonempty and its escape is nonempty; prefix-star each
whitespace-separated token of the escaped keyword. -/
def condChunk (q : FindAllQuery) : List FtClause :=
  let searchKeyword := searchTrim q
  if searchKeyword != "" then
    let cleanName := escapeRediSearchText searchKeyword
    if cleanName != "" then
      [FtClause.textCond
        (String.intercalate " " ((splitWsStr cleanName).map (fun t => t ++ "*")))
        (sanitizeTagKeyword searchKeyword)]
    else []
  else []

/-- The tag filter block (source lines 291-293). -/
def tagChunk (q : FindAllQuery) : List FtClause :=
  match q.tag with
  | some t => if t != "" then [FtClause.tagC (sanitizeTagKeyword t)] else []
  | none => []

/-- The location filter block (source lines 296-299). -/
def locChunk (q : FindAllQuery) : List FtClause :=
  match q.locations with
  | some l =>
    if 0 < l.length then
      [FtClause.locC (String.intercalate " | " (l.map sanitizeTagKeyword))]
    else []
  | none => []

/-- The numeric price block (source lines 302-306): gated on either bound
being `!== undefined` (presence, not truthiness). -/
def priceChunk (q : FindAllQuery) : List FtClause :=
  if q.minPrice.isSome || q.maxPrice.isSome then [FtClause.priceC q.minPrice q.maxPrice]
  else []

/-- The rating block (source lines 308-310): gated on truthiness. -/
def ratingChunk (q : FindAllQuery) : List FtClause :=
  match q.rating with
  | some r => if r != 0 then [FtClause.ratingC r] else []
  | none => []

/-- The clause list of the index query, with the `@status:{ACTIVE}` seed
first (source line 276) and the blocks in source order. -/
def ftClauses (q : FindAllQuery) : List FtClause :=
  FtClause.statusActive ::
    (condChunk q ++ tagChunk q ++ locChunk q ++ priceChunk q ++ ratingChunk q)

/-- Rendering of one clause into query-string syntax. -/
def renderFtClause : FtClause → String
  | .statusActive => "@status:\x7bACTIVE\x7d"
  | .textCond toks kw => "(@name:(" ++ toks ++ ") | @systemTags:\x7b" ++ kw ++ "\x7d)"
  | .tagC t => "@systemTags:\x7b" ++ t ++ "\x7d"
  | .locC s => "@location:\x7b" ++ s ++ "\x7d"
  | .priceC lo hi =>
    "@price:[" ++
      (match lo with | some n => toString n | none => "-Infinity") ++ " " ++
      (match hi with | some n => toString n | none => "Infinity") ++ "]"
  | .ratingC r => "@rating:[" ++ toString r ++ " +inf]"

/-- The full query string, appended with single spaces exactly as the
`ftQuery +=` chain builds it. -/
def renderFtQuery : List FtClause → String
  | [] => ""
  | c :: rest => rest.foldl (fun acc cl => acc ++ " " ++ renderFtClause cl) (renderFtClause c)

/-- The `SORTBY` pair of the index call (source lines 313-316). -/
def ftSortOf (q : FindAllQuery) : String × String :=
  let f := ("salesCount", "DESC")
  let f := if q.sort == some "price_asc" then ("price", "ASC") else f
  if q.sort == some "price_desc" then ("price", "DESC") else f

/-- The Prisma `orderBy` of the fallback (source lines 388-391). -/
inductive DbOrder
  | salesCountDesc
  | priceAsc
  | priceDesc
  | createdAtDesc
  deriving Repr, DecidableEq

/-- Sort mapping of the fallback (source lines 388-391). -/
def dbOrderOf (q : FindAllQuery) : DbOrder :=
  let o := DbOrder.salesCountDesc
  let o := if q.sort == some "price_asc" then DbOrder.priceAsc else o
  let o := if q.sort == some "price_desc" then DbOrder.priceDesc else o
  if q.sort == some "newest" then DbOrder.createdAtDesc else o

/-- The Prisma where-clause of the fallback (source lines 354-385): status
`ACTIVE` plus the optional predicates, each `none` when its (truthiness)
gate was closed.  The tag value is passed raw (the fallback does not
sanitize it). -/
structure DbWhere where
  statusEq : String
  searchOr : Option String
  priceGte : Option Int
  priceLte : Option Int
  ratingGte : Option Int
  cityIn : Option (List String)
  tagContains : Option String
  deriving Repr, DecidableEq

/-- Build the fallback where-clause from the request (source lines 354-385).
Note the truthiness gates: a present-but-zero `minPrice`/`maxPrice`/`rating`
and a present-but-empty `tag` add no predicate. -/
def dbWhereOf (q : FindAllQuery) : DbWhere :=
  let searchKeyword := searchTrim q
  { statusEq := "ACTIVE"
    searchOr := if searchKeyword != "" then some searchKeyword else none
    priceGte := match q.minPrice with
      | some v => if v != 0 then some v else none
      | none => none
    priceLte := match q.maxPrice with
      | some v => if v != 0 then some v else none
      | none => none
    ratingGte := match q.rating with
      | some v => if v != 0 then some v else none
      | none => none
    cityIn := match q.locations with
      | some l => if 0 < l.length then some l else none
      | none => none
    tagContains := match q.tag with
      | some t => if t != "" then some t else none
      | none => none }

/-- A catalog row as the fallback `findMany` returns it (all scalar fields
plus `shop.city`). -/
structure DbRow where
  id : String
  name : String
  slug : String
  status : String
  price : Int
  originalPrice : Option Int
  rating : Option Int
  salesCount : Option Int
  images : JsVal
  systemTags : JsVal
  shopCity : Option String
  createdAt : Int
  deriving Repr

/-- A fallback row after the response mapping (source lines 410-416): spread
of the row plus numeric price fields, the shop city as `location`, and the
images parsed when they were stored as a JSON string. -/
structure MappedDbRow where
  base : DbRow
  price : Int
  originalPrice : Int
  location : Option String
  images : JsVal
  deriving Repr

/-- Map one fallback row (source lines 410-416).  A string `images` value is
`JSON.parse`d inside the surrounding `try`, so a parse failure aborts the
whole fallback. -/
def mapDbRow (jp : String → Option JsVal) (p : DbRow) : Except String MappedDbRow :=
  match p.images with
  | .str s =>
    match jp s with
    | some v =>
      .ok { base := p, price := p.price, originalPrice := p.originalPrice.getD 0,
            location := p.shopCity, images := v }
    | none => .error "Unexpected token in JSON"
  | v =>
    .ok { base := p, price := p.price, originalPrice := p.originalPrice.getD 0,
          location := p.shopCity, images := v }

/-- Map every fallback row, stopping at the first parse failure. -/
def mapDbRows (jp : String → Option JsVal) : List DbRow → Except String (List MappedDbRow)
  | [] => .ok []
  | p :: t => do
    let m ← mapDbRow jp p
    let rest ← mapDbRows jp t
    .ok (m :: rest)

/-- An item of a result page: a JSON payload decoded from the index, or a
mapped fallback row. -/
inductive Item
  | fromIdx (v : JsVal)
  | fromDb (r : MappedDbRow)
  deriving Repr

/-- The `meta` object of a result page.  On the index path `total` is the
raw first reply element (which is `undefined` for an empty reply) and
`last_page` follows JS arithmetic on it. -/
structure PageMeta where
  total : Resp
  page : Int
  limit : Int
  lastPage : Resp
  deriving Repr

/-- `{ data, meta }` as `findAllPublic` returns it. -/
structure PageResult where
  data : List Item
  meta : PageMeta
  deriving Repr

/-- A performed result-cache write: key, stored page, TTL seconds. -/
structure CacheWrite where
  key : String
  page : PageResult
  ttl : Int
  deriving Repr

/-- The external world of `findAllPublic`: the `FT.SEARCH` call (query
string, offset, limit, sort field, sort direction), the combined
`findMany`/`count` fallback query, the result-cache `get`/`set`, the MD5
hash of the serialized request, and `JSON.parse`. -/
structure Env where
  ftSearch : String → Int → Int → String → String → Except String (List Resp)
  dbQuery : DbWhere → Int → Int → DbOrder → Except String (List DbRow × Int)
  cacheGet : String → Option String
  cacheSet : String → Int → Except String Unit
  md5 : FindAllQuery → String
  jparse : String → Option JsVal

/-- The body of one iteration of the reply-parsing loop: given the
`searchRes[i+1]` field list (or `undefined` when `i+1` is out of range) and
the already-parsed remainder, apply the truthiness-and-length guard, find
the value after the `json` field name and, when truthy, `JSON.parse` it (a
throw aborts the whole index path). -/
def parseFtStep (jp : String → Option JsVal) (fields : Resp)
    (rest : Except String (List JsVal)) : Except String (List JsVal) :=
  if respTruthy fields &&
      (match respLenNum fields with
       | some k => decide (2 ≤ k)
       | none => false) then
    let idx := respIndexOfJson fields
    let jsonStr := respElem fields (idx + 1)
    if respTruthy jsonStr then
      match jp (respToString jsonStr) with
      | some v => do
        let r ← rest
        .ok (v :: r)
      | none => .error "Unexpected token in JSON"
    else rest
  else rest

/-- The reply-parsing loop (source lines 330-337) over the reply tail after
`searchRes[0]`: the loop visits `i = 1, 3, 5, ...` while `i < length`, i.e.
one step per key/fields pair, with `fields` being `undefined` when the pair
is truncated. -/
def parseFtPairs (jp : String → Option JsVal) : List Resp → Except String (List JsVal)
  | [] => .ok []
  | [_k] => parseFtStep jp Resp.undef (.ok [])
  | _k :: fields :: rest => parseFtStep jp fields (parseFtPairs jp rest)

/-- Parse an index reply into the pushed product payloads. -/
def parseFtProducts (jp : String → Option JsVal) (reply : List Resp) :
    Except String (List JsVal) :=
  match reply with
  | [] => .ok []
  | _total :: pairs => parseFtPairs jp pairs

/-- The page built from an index reply (source lines 327-342): `total` is the
raw `searchRes[0]` and `last_page` is `Math.ceil(total / limit)` under JS
coercion. -/
def pageOfIndex (reply : List Resp) (items : List JsVal) (page limit : Int) : PageResult :=
  let total := reply.getD 0 Resp.undef
  { data := items.map Item.fromIdx,
    meta := { total := total, page := page, limit := limit,
              lastPage := jsCeilDivResp total limit } }

/-- What one `findAllPublic` run did: its outcome (an `error` is an uncaught
throw reaching the caller) together with the arguments of the index call and
of the fallback query, when each was issued. -/
structure FindAllOut where
  result : Except String (PageResult × Option CacheWrite)
  ftArgs : Option (String × Int × Int × String × String)
  dbArgs : Option (DbWhere × Int × Int × DbOrder)
  deriving Repr

/-- `Math.max(1, Number(query.page) || 1)` (source line 257). -/
def pageOfQ (q : FindAllQuery) : Int :=
  max 1 (jsNumOr q.page 1)

/-- `Math.max(1, Number(query.limit) || 20)` (source line 258). -/
def limitOfQ (q : FindAllQuery) : Int :=
  max 1 (jsNumOr q.limit 20)

/-- `(page - 1) * limit` (source line 259). -/
def skipOfQ (q : FindAllQuery) : Int :=
  (pageOfQ q - 1) * limitOfQ q

/-- The cache key: `search:res:` + the MD5 hash of the serialized request
(source lines 262-263). -/
def cacheKeyOf (env : Env) (q : FindAllQuery) : String :=
  "search:res:" ++ env.md5 q

/-- The successful fallback page (source lines 409-423). -/
def dbPageOf (mapped : List MappedDbRow) (total : Int) (page limit : Int) : PageResult :=
  { data := mapped.map Item.fromDb,
    meta := { total := .num total, page := page, limit := limit,
              lastPage := .num (ceilD total limit) } }

/-- The empty page returned when the fallback query itself fails
(source line 426). -/
def emptyPage (page limit : Int) : PageResult :=
  { data := [],
    meta := { total := .num 0, page := page, limit := limit, lastPage := .num 0 } }

/-- The fallback phase (source lines 349-435): run the translated Prisma
query with the same `skip`/`limit`; a query or mapping failure returns the
empty page (line 426); a success builds the page and — when the data is
nonempty and `query.search` is falsy — performs the result-cache write with
TTL 60, whose own failure is uncaught and reaches the caller. -/
def dbPhase (env : Env) (q : FindAllQuery) (page limit skip : Int) (cacheKey : String)
    (ftArgs : Option (String × Int × Int × String × String)) : FindAllOut :=
  let w := dbWhereOf q
  let ob := dbOrderOf q
  let dbArgs := some (w, limit, skip, ob)
  match env.dbQuery w limit skip ob with
  | .error _ =>
    { result := .ok (emptyPage page limit, none), ftArgs := ftArgs, dbArgs := dbArgs }
  | .ok (rows, total) =>
    match mapDbRows env.jparse rows with
    | .error _ =>
      { result := .ok (emptyPage page limit, none), ftArgs := ftArgs, dbArgs := dbArgs }
    | .ok mapped =>
      let resultData : PageResult := dbPageOf mapped total page limit
      if decide (0 < resultData.data.length) && !truthyS q.search then
        match env.cacheSet cacheKey 60 with
        | .ok _ =>
          { result := .ok (resultData, some { key := cacheKey, page := resultData, ttl := 60 }),
            ftArgs := ftArgs, dbArgs := dbArgs }
        | .error e => { result := .error e, ftArgs := ftArgs, dbArgs := dbArgs }
      else
        { result := .ok (resultData, none), ftArgs := ftArgs, dbArgs := dbArgs }

/-- `findAllPublic` (source lines 256-436).  Page and limit are clamped,
the cache key is the MD5 of the serialized request (`env.md5`), and the
request uses the index exactly when `shouldUseRedisB` holds; an index-path
throw (from the call or from reply parsing) falls back to `dbPhase`; an
index-path success returns directly, before the cache block. -/
def findAllPublic (env : Env) (q : FindAllQuery) : FindAllOut :=
  let page := pageOfQ q
  let limit := limitOfQ q
  let skip := skipOfQ q
  let cacheKey := cacheKeyOf env q
  if shouldUseRedisB q then
    let ftq := renderFtQuery (ftClauses q)
    let sb := ftSortOf q
    let ftArgs := some (ftq, skip, limit, sb.1, sb.2)
    match env.ftSearch ftq skip limit sb.1 sb.2 with
    | .ok reply =>
      match parseFtProducts env.jparse reply with
      | .ok items =>
        { result := .ok (pageOfIndex reply items page limit, none),
          ftArgs := ftArgs, dbArgs := none }
      | .error _ => dbPhase env q page limit skip cacheKey ftArgs
    | .error _ => dbPhase env q page limit skip cacheKey ftArgs
  else
    dbPhase env q page limit skip cacheKey none

-- ===========================================================================
-- Predicate views of the two filter translations (for the fallback claims)
-- ===========================================================================

/-- The price constraint one index clause imposes on a price (non-price
clauses impose none); a missing bound is `±Infinity`, i.e. vacuous. -/
def ftClausePriceOk (c : FtClause) (p : Int) : Bool :=
  match c with
  | .priceC lo hi =>
    (match lo with | some a => decide (a ≤ p) | none => true) &&
    (match hi with | some b => decide (p ≤ b) | none => true)
  | _ => true

/-- The price constraint of a whole index clause list. -/
def ftPriceOk (cs : List FtClause) (p : Int) : Bool :=
  cs.all (fun c => ftClausePriceOk c p)

/-- The price constraint of the fallback where-clause. -/
def dbPriceOk (w : DbWhere) (p : Int) : Bool :=
  (match w.priceGte with | some a => decide (a ≤ p) | none => true) &&
  (match w.priceLte with | some b => decide (p ≤ b) | none => true)

/-- The rating-floor constraint one index clause imposes. -/
def ftClauseRatingOk (c : FtClause) (r : Int) : Bool :=
  match c with
  | .ratingC a => decide (a ≤ r)
  | _ => true

/-- The rating-floor constraint of a whole index clause list. -/
def ftRatingOk (cs : List FtClause) (r : Int) : Bool :=
  cs.all (fun c => ftClauseRatingOk c r)

/-- The rating-floor constraint of the fallback where-clause. -/
def dbRatingOk (w : DbWhere) (r : Int) : Bool :=
  match w.ratingGte with
  | some a => decide (a ≤ r)
  | none => true

/-- The fallback order corresponding to an index `SORTBY` pair. -/
def sortPairToDb : String × String → DbOrder
  | ("price", "ASC") => DbOrder.priceAsc
  | ("price", "DESC") => DbOrder.priceDesc
  | _ => DbOrder.salesCountDesc

/-- Modelled from the spec: the index-path decision rule as §4.6 words it —
"use the index path when a free-text term is present OR any of
\x7btag, min price, max price, rating, locations\x7d is present" — i.e. mere
presence of the fields, not their truthiness. -/
def spec_indexPathCond (q : FindAllQuery) : Bool :=
  decide (0 < (searchTrim q).length) || q.tag.isSome || q.minPrice.isSome ||
  q.maxPrice.isSome || q.rating.isSome ||
  (match q.locations with
   | some l => decide (0 < l.length)
   | none => false)

-- ===========================================================================
-- Index query semantics (for the stale-entry exclusion claim)
-- ===========================================================================

/-- A clause list matches an index entry when every clause accepts it. -/
def ftConjMatches (sem : FtClause → IndexEntryMap → Bool) (cs : List FtClause)
    (e : IndexEntryMap) : Bool :=
  cs.all (fun c => sem c e)

/-- Modelled from the spec: the Index Store's `full-text-query` contract
(§6) evaluated over the stored entries — a query returns exactly the entries
every conjunct of the query accepts.  The per-clause semantics `sem` is kept
abstract except for the hypotheses a theorem states about it (the spec fixes
the tag-clause semantics: `@status:\x7bV\x7d` matches entries whose status
tag is `V`). -/
def ftSearchEval (sem : FtClause → IndexEntryMap → Bool) (q : FindAllQuery)
    (entries : List IndexEntryMap) : List IndexEntryMap :=
  entries.filter (ftConjMatches sem (ftClauses q))

-- ===========================================================================
-- `findOnePublic` (source lines 470-525)
-- ===========================================================================

/-- A detail-cache entry: its status tag plus the rest of the cached object,
kept opaque. -/
structure DetailCacheEntry where
  status : String
  payload : JsVal
  deriving Repr

/-- A catalog record as `findFirst` returns it for the detail page.  The
joined option/variant collections are opaque here: the response mapping
(source lines 494-521) reshapes them but the record spread keeps `status`
and the scalar fields unchanged. -/
structure ProductDetail where
  id : String
  slug : String
  status : String
  price : Int
  originalPrice : Option Int
  payload : JsVal
  deriving Repr

/-- The mapped detail response (source lines 494-521): the record spread
plus the numeric price and `regularPrice` (absent when `originalPrice` is
falsy); the tier/variation reshaping acts on the opaque payload. -/
structure MappedDetail where
  base : ProductDetail
  price : Int
  regularPrice : Option Int
  deriving Repr

/-- The response mapping (source lines 494-521). -/
def mapDetail (p : ProductDetail) : MappedDetail :=
  { base := p, price := p.price,
    regularPrice := match p.originalPrice with
      | some v => if v != 0 then some v else none
      | none => none }

/-- What `findOnePublic` returns: the cached entry as-is, or the mapped
record. -/
inductive DetailResult
  | cached (c : DetailCacheEntry)
  | mapped (m : MappedDetail)
  deriving Repr

/-- The status carried by a detail result. -/
def detailStatus : DetailResult → String
  | .cached c => c.status
  | .mapped m => m.base.status

/-- The source-store half of `findOnePublic` (source lines 476-525): throw
not-found when nothing matched or the match is not ACTIVE, else map and
return. -/
def findOneRest (dbProduct : Option ProductDetail) : Except String DetailResult :=
  match dbProduct with
  | none => .error "Sản phẩm không tồn tại"
  | some p =>
    if p.status != "ACTIVE" then .error "Sản phẩm không tồn tại"
    else .ok (.mapped (mapDetail p))

/-- `findOnePublic` (source lines 470-525): serve the cached detail only
when its status is ACTIVE; otherwise fall through to the source store. -/
def findOnePublic (cachedProduct : Option DetailCacheEntry)
    (dbProduct : Option ProductDetail) : Except String DetailResult :=
  match cachedProduct with
  | some c => if c.status == "ACTIVE" then .ok (.cached c) else findOneRest dbProduct
  | none => findOneRest dbProduct

-- ===========================================================================
-- Verification infrastructure and concrete fixtures
-- ===========================================================================

/-- Normal form produced by `collapseWsAux`: every whitespace character is a
single `' '` and, when `afterWs` is set, the list does not begin with
whitespace; no two whitespace characters are adjacent. -/
def wsNormal : Bool → List Char → Bool
  | _, [] => true
  | afterWs, c :: t =>
    if jsWs c then !afterWs && (c == ' ') && wsNormal true t
    else wsNormal false t

/-- The identity URL-decoder: models `decodeURIComponent` on inputs without
percent escapes. -/
def decId : String → Option String := fun s => some s

/-- A `JSON.parse` oracle that always throws. -/
def jpNone : String → Option JsVal := fun _ => none

/-- A concrete fallback row. -/
def rowA : DbRow :=
  { id := "p1", name := "Ao thun", slug := "ao-thun", status := "ACTIVE", price := 5,
    originalPrice := none, rating := none, salesCount := none,
    images := JsVal.arr [], systemTags := JsVal.other, shopCity := none, createdAt := 0 }

/-- A concrete ACTIVE catalog row for the sync fixtures. -/
def prodA : ProductRow :=
  { id := "p1", name := "Ao thun", price := 120, originalPrice := some 150,
    salesCount := some 3, status := "ACTIVE", slug := "ao-thun",
    images := JsVal.arr [JsVal.str "img0"], systemTags := JsVal.arr [JsVal.str "shoes"],
    rating := some 4, shopCity := some "Ha Noi", createdAt := 1700000000 }

/-- The same row after an ACTIVE → INACTIVE transition. -/
def prodInactive : ProductRow :=
  { prodA with status := "INACTIVE" }

/-- A dead index store and a dead result cache, but a healthy source store:
the regime in which the fallback runs and the trailing cache write fails. -/
def envRaise : Env :=
  { ftSearch := fun _ _ _ _ _ => .error "Connection is closed."
    dbQuery := fun _ _ _ _ => .ok ([rowA], 1)
    cacheGet := fun _ => none
    cacheSet := fun _ _ => .error "Connection is closed."
    md5 := fun _ => "h"
    jparse := fun _ => none }

/-- An index store replying with a malformed (empty) array, everything else
healthy. -/
def envEmptyReply : Env :=
  { envRaise with ftSearch := fun _ _ _ _ _ => .ok [], cacheSet := fun _ _ => .ok () }

/-- Both the index store and the source store fail. -/
def envBothFail : Env :=
  { envRaise with dbQuery := fun _ _ _ _ => .error "db down" }

/-- A healthy index store returning an empty result set (`[0]`). -/
def envOkIdx : Env :=
  { envRaise with ftSearch := fun _ _ _ _ _ => .ok [Resp.num 0] }

/-- Index store dead, source store and cache healthy. -/
def envDbOk : Env :=
  { envRaise with cacheSet := fun _ _ => .ok () }

/-- A request with only a tag filter. -/
def qTagX : FindAllQuery := { tag := some "x" }

/-- A request whose only parameter is a present-but-zero `minPrice`. -/
def qMinZero : FindAllQuery := { minPrice := some 0 }

/-- A search request with a present-but-zero `maxPrice`. -/
def qMaxZero : FindAllQuery := { search := some "a", maxPrice := some 0 }

-- ===========================================================================
-- Helper lemmas: whitespace machinery
-- ===========================================================================

theorem collapseWsAux_mem {b : Bool} {l : List Char} {c : Char}
    (h : c ∈ collapseWsAux b l) : c = ' ' ∨ c ∈ l := by
  induction l generalizing b with
  | nil => simp [collapseWsAux] at h
  | cons d t ih =>
    by_cases hd : jsWs d
    · cases b with
      | true =>
        simp only [collapseWsAux, hd, if_true, if_pos] at h
        rcases ih h with h1 | h1
        · exact Or.inl h1
        · exact Or.inr (List.mem_cons_of_mem _ h1)
      | false =>
        simp only [collapseWsAux, hd, if_true] at h
        rcases List.mem_cons.mp h with h1 | h1
        · exact Or.inl h1
        · rcases ih h1 with h2 | h2
          · exact Or.inl h2
          · exact Or.inr (List.mem_cons_of_mem _ h2)
    · simp only [collapseWsAux, hd, if_false] at h
      rcases List.mem_cons.mp h with h1 | h1
      · exact Or.inr (h1 ▸ List.mem_cons_self _ _)
      · rcases ih h1 with h2 | h2
        · exact Or.inl h2
        · exact Or.inr (List.mem_cons_of_mem _ h2)

theorem wsNormal_collapseWsAux (b : Bool) (l : List Char) :
    wsNormal b (collapseWsAux b l) = true := by
  induction l generalizing b with
  | nil => simp [collapseWsAux, wsNormal]
  | cons d t ih =>
    by_cases hd : jsWs d
    · cases b with
      | true => simpa [collapseWsAux, hd] using ih true
      | false =>
        have := ih true
        simp only [collapseWsAux, hd, if_true]
        simp [wsNormal, this]
        exact Or.inl (by decide)
    · have := ih false
      cases b <;> simp [collapseWsAux, hd, wsNormal, this]

theorem collapseWsAux_eq_self {b : Bool} {l : List Char}
    (h : wsNormal b l = true) : collapseWsAux b l = l := by
  induction l generalizing b with
  | nil => simp [collapseWsAux]
  | cons d t ih =>
    by_cases hd : jsWs d
    · simp only [wsNormal, hd, if_true, Bool.and_eq_true, Bool.not_eq_true',
        beq_iff_eq] at h
      obtain ⟨⟨hb, hsp⟩, ht⟩ := h
      subst hb; subst hsp
      simp [collapseWsAux, hd, ih ht]
    · simp only [wsNormal, hd, if_false] at h
      cases b <;> simp [collapseWsAux, hd, ih h]

theorem collapseWs_idem (l : List Char) : collapseWs (collapseWs l) = collapseWs l :=
  collapseWsAux_eq_self (wsNormal_collapseWsAux false l)

theorem collapseWsAux_true_eq_nil_iff {l : List Char} :
    collapseWsAux true l = [] ↔ ∀ c ∈ l, jsWs c = true := by
  induction l with
  | nil => simp [collapseWsAux]
  | cons d t ih =>
    by_cases hd : jsWs d
    · simp [collapseWsAux, hd, ih]
    · simp [collapseWsAux, hd]

theorem collapseWsAux_false_eq_nil_iff {l : List Char} :
    collapseWsAux false l = [] ↔ l = [] := by
  cases l with
  | nil => simp [collapseWsAux]
  | cons d t => by_cases hd : jsWs d <;> simp [collapseWsAux, hd]

theorem getLast?_cons_ne_nil {α : Type} {d : α} {t : List α} (ht : t ≠ []) :
    (d :: t).getLast? = t.getLast? := by
  cases t with
  | nil => exact absurd rfl ht
  | cons x xs => exact List.getLast?_cons_cons

theorem getLast?_collapseWsAux {l : List Char} {b : Bool}
    (h : ∀ c, l.getLast? = some c → jsWs c = false) :
    ∀ c, (collapseWsAux b l).getLast? = some c → jsWs c = false := by
  induction l generalizing b with
  | nil => intro c hc; simp [collapseWsAux] at hc
  | cons d t ih =>
    intro c hc
    by_cases ht : t = []
    · subst ht
      by_cases hd : jsWs d
      · exact absurd (h d (by simp)) (by simp [hd])
      · simp [collapseWsAux, hd] at hc
        exact hc ▸ (Bool.not_eq_true _ |>.mp hd)
    · have htail : ∀ e, t.getLast? = some e → jsWs e = false := fun e he =>
        h e (by rw [getLast?_cons_ne_nil ht]; exact he)
      by_cases hd : jsWs d
      · cases b with
        | true =>
          have hstep : collapseWsAux true (d :: t) = collapseWsAux true t := by
            simp [collapseWsAux, hd]
          rw [hstep] at hc
          exact ih htail c hc
        | false =>
          have hstep : collapseWsAux false (d :: t) = ' ' :: collapseWsAux true t := by
            simp [collapseWsAux, hd]
          rw [hstep] at hc
          by_cases hnil : collapseWsAux true t = []
          · have hall := collapseWsAux_true_eq_nil_iff.mp hnil
            have h1 := htail _ (List.getLast?_eq_getLast_of_ne_nil ht)
            have h2 := hall _ (List.getLast_mem ht)
            exact absurd h2 (by simp [h1])
          · rw [getLast?_cons_ne_nil hnil] at hc
            exact ih htail c hc
      · have hstep : collapseWsAux b (d :: t) = d :: collapseWsAux false t := by
          cases b <;> simp [collapseWsAux, hd]
        rw [hstep] at hc
        by_cases hnil : collapseWsAux false t = []
        · rw [hnil] at hc
          simp at hc
          exact hc ▸ (Bool.not_eq_true _ |>.mp hd)
        · rw [getLast?_cons_ne_nil hnil] at hc
          exact ih htail c hc

theorem head?_dropWhile_not {p : Char → Bool} {l : List Char} :
    ∀ c, (l.dropWhile p).head? = some c → p c = false := by
  intro c hc
  have hne : l.dropWhile p ≠ [] := by
    intro hnil
    rw [hnil] at hc
    simp at hc
  have := List.head_dropWhile_not p l hne
  rw [List.head?_eq_head hne] at hc
  simp only [Option.some.injEq] at hc
  subst hc
  simpa using this

theorem headEq_of_isPre {α : Type} {l₁ l₂ : List α} (h : l₁ <+: l₂) (hne : l₁ ≠ []) :
    l₂.head? = l₁.head? := by
  obtain ⟨t, rfl⟩ := h
  cases l₁ with
  | nil => exact absurd rfl hne
  | cons a r => simp

theorem jsTrimL_head? {l : List Char} :
    ∀ c, (jsTrimL l).head? = some c → jsWs c = false := by
  intro c hc
  have hne : jsTrimL l ≠ [] := by
    intro hnil
    rw [hnil] at hc
    simp at hc
  have hpre : jsTrimL l <+: l.dropWhile jsWs := List.rdropWhile_prefix _ _
  have := headEq_of_isPre hpre hne
  exact head?_dropWhile_not c (by rw [this]; exact hc)

theorem jsTrimL_getLast? {l : List Char} :
    ∀ c, (jsTrimL l).getLast? = some c → jsWs c = false := by
  intro c hc
  have hne : jsTrimL l ≠ [] := by
    intro hnil
    rw [hnil] at hc
    simp at hc
  have := List.rdropWhile_last_not jsWs (l.dropWhile jsWs) (by exact hne)
  rw [List.getLast?_eq_getLast_of_ne_nil hne] at hc
  simp only [Option.some.injEq] at hc
  subst hc
  simpa [jsTrimL] using this

theorem dropWhile_eq_self_of_head? {p : Char → Bool} {l : List Char}
    (h : ∀ c, l.head? = some c → p c = false) : l.dropWhile p = l := by
  cases l with
  | nil => simp
  | cons d t =>
    have := h d (by simp)
    simp [List.dropWhile_cons, this]

theorem rdropWhile_eq_self_of_getLast? {p : Char → Bool} {l : List Char}
    (h : ∀ c, l.getLast? = some c → p c = false) : l.rdropWhile p = l := by
  rw [List.rdropWhile_eq_self_iff]
  intro hl
  have := h _ (List.getLast?_eq_getLast_of_ne_nil hl)
  simp [this]

theorem head?_collapseWs {l : List Char}
    (h : ∀ c, l.head? = some c → jsWs c = false) :
    ∀ c, (collapseWs l).head? = some c → jsWs c = false := by
  intro c hc
  cases l with
  | nil => simp [collapseWs, collapseWsAux] at hc
  | cons d t =>
    have hd := h d (by simp)
    rw [show collapseWs (d :: t) = d :: collapseWsAux false t by
      simp [collapseWs, collapseWsAux, hd]] at hc
    simp at hc
    exact hc ▸ hd

theorem jsTrimL_idem (l : List Char) : jsTrimL (jsTrimL l) = jsTrimL l := by
  have h1 : List.dropWhile jsWs (jsTrimL l) = jsTrimL l :=
    dropWhile_eq_self_of_head? (fun c hc => jsTrimL_head? c hc)
  have h2 : List.rdropWhile jsWs (jsTrimL l) = jsTrimL l :=
    rdropWhile_eq_self_of_getLast? (fun c hc => jsTrimL_getLast? c hc)
  calc jsTrimL (jsTrimL l)
      = List.rdropWhile jsWs (List.dropWhile jsWs (jsTrimL l)) := rfl
    _ = List.rdropWhile jsWs (jsTrimL l) := by rw [h1]
    _ = jsTrimL l := h2

theorem jsTrimL_collapseWs_jsTrimL (m : List Char) :
    jsTrimL (collapseWs (jsTrimL m)) = collapseWs (jsTrimL m) := by
  have h1 : List.dropWhile jsWs (collapseWs (jsTrimL m)) = collapseWs (jsTrimL m) :=
    dropWhile_eq_self_of_head?
      (fun c hc => head?_collapseWs (fun e he => jsTrimL_head? e he) c hc)
  have h2 : List.rdropWhile jsWs (collapseWs (jsTrimL m)) = collapseWs (jsTrimL m) :=
    rdropWhile_eq_self_of_getLast?
      (fun c hc => getLast?_collapseWsAux (fun e he => jsTrimL_getLast? e he) c hc)
  calc jsTrimL (collapseWs (jsTrimL m))
      = List.rdropWhile jsWs (List.dropWhile jsWs (collapseWs (jsTrimL m))) := rfl
    _ = List.rdropWhile jsWs (collapseWs (jsTrimL m)) := by rw [h1]
    _ = collapseWs (jsTrimL m) := h2

theorem mem_jsTrimL {l : List Char} {c : Char} (h : c ∈ jsTrimL l) : c ∈ l := by
  have h1 : c ∈ List.dropWhile jsWs l := by
    have hp := List.rdropWhile_prefix jsWs (l.dropWhile jsWs)
    exact hp.sublist.subset h
  exact (List.dropWhile_sublist jsWs).subset h1

theorem sanitizeTagKeyword_chars {s : String} :
    ∀ c ∈ (sanitizeTagKeyword s).data, dangerKw c = false := by
  intro c hc
  have hc' : c ∈ collapseWs (jsTrimL (s.data.map (fun c => if dangerKw c then ' ' else c))) := hc
  rcases collapseWsAux_mem hc' with h1 | h1
  · subst h1; decide
  · have h2 := mem_jsTrimL h1
    obtain ⟨a, _, ha⟩ := List.mem_map.mp h2
    by_cases hda : dangerKw a
    · simp [hda] at ha
      subst ha; decide
    · simp [hda] at ha
      subst ha
      simpa using hda

theorem flatMap_escape_id {l : List Char} (h : ∀ c ∈ l, allowChar c = true) :
    (l.flatMap (fun c => if allowChar c then [c] else [Char.ofNat 92, c])) = l := by
  induction l with
  | nil => simp
  | cons d t ih =>
    have hd := h d (by simp)
    simp only [List.flatMap_cons, hd, if_true]
    rw [ih (fun c hc => h c (List.mem_cons_of_mem _ hc))]
    rfl

/-- Claim C9: `escapeRediSearchText` and `sanitizeTagKeyword` are pure total
functions (they are plain Lean functions here, with no failure path in the
source either); `sanitizeTagKeyword` is idempotent on every string, and
`escapeRediSearchText` is idempotent on every input consisting only of
allow-list characters (ASCII alphanumerics, whitespace, U+00C0–U+1EF9,
hyphen). -/
theorem C9_escaper_algebra :
    (∀ s : String, sanitizeTagKeyword (sanitizeTagKeyword s) = sanitizeTagKeyword s) ∧
    (∀ s : String, (∀ c ∈ s.data, allowChar c = true) →
      escapeRediSearchText (escapeRediSearchText s) = escapeRediSearchText s) := by
  constructor
  · intro s
    have hchars := @sanitizeTagKeyword_chars s
    have hmap : (sanitizeTagKeyword s).data.map (fun c => if dangerKw c then ' ' else c)
        = (sanitizeTagKeyword s).data := by
      have : ∀ c ∈ (sanitizeTagKeyword s).data,
          (fun c => if dangerKw c then ' ' else c) c = id c := by
        intro c hc
        simp [hchars c hc]
      rw [List.map_congr_left this, List.map_id]
    show String.mk (collapseWs (jsTrimL ((sanitizeTagKeyword s).data.map _))) = _
    rw [hmap]
    show String.mk (collapseWs (jsTrimL
      (collapseWs (jsTrimL (s.data.map (fun c => if dangerKw c then ' ' else c)))))) = _
    rw [jsTrimL_collapseWs_jsTrimL, collapseWs_idem]
    rfl
  · intro s h
    have h1 : escapeRediSearchText s = String.mk (jsTrimL s.data) := by
      show String.mk (jsTrimL (s.data.flatMap _)) = _
      rw [flatMap_escape_id h]
    have h2 : ∀ c ∈ (escapeRediSearchText s).data, allowChar c = true := by
      intro c hc
      rw [h1] at hc
      exact h c (mem_jsTrimL hc)
    have h3 : escapeRediSearchText (escapeRediSearchText s)
        = String.mk (jsTrimL (escapeRediSearchText s).data) := by
      show String.mk (jsTrimL ((escapeRediSearchText s).data.flatMap _)) = _
      rw [flatMap_escape_id h2]
    rw [h3, h1]
    show String.mk (jsTrimL (jsTrimL s.data)) = _
    rw [jsTrimL_idem]

/-- Witness for C9 at concrete inputs. -/
theorem C9_escaper_algebra_witness :
    sanitizeTagKeyword (sanitizeTagKeyword "a(b") = sanitizeTagKeyword "a(b" ∧
    escapeRediSearchText (escapeRediSearchText "ao -thun") = escapeRediSearchText "ao -thun" :=
  ⟨C9_escaper_algebra.1 "a(b", C9_escaper_algebra.2 "ao -thun" (by decide)⟩

-- ===========================================================================
-- Helper lemmas: tag sanitizer
-- ===========================================================================

theorem dedupFirstAux_sublist (seen : List String) (l : List String) :
    (dedupFirstAux seen l).Sublist l := by
  induction l generalizing seen with
  | nil => simp [dedupFirstAux]
  | cons x t ih =>
    by_cases hx : seen.contains x
    · simp only [dedupFirstAux, hx, if_true]
      exact (ih seen).cons x
    · simp only [dedupFirstAux, hx, if_false]
      exact (ih (x :: seen)).cons₂ x

theorem dedupFirstAux_not_mem_seen {seen l : List String} {x : String}
    (hx : x ∈ dedupFirstAux seen l) : x ∉ seen := by
  induction l generalizing seen with
  | nil => simp [dedupFirstAux] at hx
  | cons y t ih =>
    by_cases hy : seen.contains y
    · simp only [dedupFirstAux, hy, if_true] at hx
      exact ih hx
    · simp only [dedupFirstAux, hy, if_false] at hx
      rcases List.mem_cons.mp hx with h1 | h1
      · subst h1
        intro hmem
        exact absurd (List.elem_iff.mpr hmem) (by simpa using hy)
      · intro hmem
        exact absurd (List.mem_cons_of_mem y hmem) (ih h1)

theorem dedupFirstAux_nodup (seen : List String) (l : List String) :
    (dedupFirstAux seen l).Nodup := by
  induction l generalizing seen with
  | nil => simp [dedupFirstAux]
  | cons x t ih =>
    by_cases hx : seen.contains x
    · simpa only [dedupFirstAux, hx, if_true] using ih seen
    · simp only [dedupFirstAux, hx, if_false]
      refine List.nodup_cons.mpr ⟨?_, ih (x :: seen)⟩
      intro hmem
      exact absurd (List.mem_cons_self x seen) (dedupFirstAux_not_mem_seen hmem)

theorem cleanTagCore_chars (m : List Char) :
    ∀ c ∈ cleanTagCore m, dangerTag c = false := by
  intro c hc
  rcases collapseWsAux_mem hc with h1 | h1
  · subst h1; decide
  · have h2 := mem_jsTrimL h1
    obtain ⟨a, _, ha⟩ := List.mem_map.mp h2
    by_cases hda : dangerTag a
    · simp [hda] at ha
      subst ha; decide
    · simp [hda] at ha
      subst ha
      simpa using hda

theorem cleanOneTag_chars (dec : String → Option String) (v : JsVal) :
    ∀ c ∈ (cleanOneTag dec v).data, dangerTag c = false := by
  intro c hc
  cases v with
  | str tag => exact cleanTagCore_chars _ c hc
  | arr xs => simp [cleanOneTag] at hc
  | other => simp [cleanOneTag] at hc

theorem mem_cleanSystemTagsList {dec : String → Option String}
    {jp : String → Option JsVal} {input : JsVal} {t : String}
    (h : t ∈ cleanSystemTagsList dec jp input) :
    t ∈ ((tagsOfInput jp input).map (cleanOneTag dec)).filter
      (fun t => 0 < utf16Len t && utf16Len t < 50) := by
  unfold cleanSystemTagsList at h
  by_cases he : (tagsOfInput jp input).isEmpty
  · simp [he] at h
  · simp only [he, if_false] at h
    exact (dedupFirstAux_sublist [] _).subset h

/-- Claim C3: for every raw tag input of any shape (array, JSON-encoded
string, comma-delimited string, or garbage) and every behaviour of the
library oracles, `cleanSystemTags` is total (it is a plain Lean function)
and returns the comma-join of a list of elements that contain none of the
dangerous characters, are nonempty, have UTF-16 length < 50, and are
pairwise distinct in first-seen order (the joined list is a deduplicated
sublist of the cleaned candidates); input that is neither an array nor a
string, or a string whose `JSON.parse` yields a non-array, yields the empty
string; and the worked example
`["  http://x?q=shoes  ", "shoes", "{bad}tag"]` yields `"shoes,bad tag"`. -/
theorem C3_cleanSystemTags :
    (∀ (dec : String → Option String) (jp : String → Option JsVal) (input : JsVal)
       (t : String), t ∈ cleanSystemTagsList dec jp input →
       (∀ c ∈ t.data, dangerTag c = false) ∧ 0 < utf16Len t ∧ utf16Len t < 50) ∧
    (∀ (dec : String → Option String) (jp : String → Option JsVal) (input : JsVal),
       (cleanSystemTagsList dec jp input).Nodup ∧
       (cleanSystemTagsList dec jp input).Sublist
         (((tagsOfInput jp input).map (cleanOneTag dec)).filter
           (fun t => 0 < utf16Len t && utf16Len t < 50)) ∧
       cleanSystemTags dec jp input
         = String.intercalate "," (cleanSystemTagsList dec jp input)) ∧
    (∀ (dec : String → Option String) (jp : String → Option JsVal),
       cleanSystemTags dec jp JsVal.other = "") ∧
    (∀ (dec : String → Option String) (jp : String → Option JsVal) (s : String)
       (v : JsVal), jp s = some v → (∀ xs, v ≠ JsVal.arr xs) →
       cleanSystemTags dec jp (JsVal.str s) = "") ∧
    (∀ (dec : String → Option String) (jp : String → Option JsVal),
       dec "  http://x?q=shoes  " = some "  http://x?q=shoes  " →
       dec "shoes" = some "shoes" →
       dec "\x7bbad\x7dtag" = some "\x7bbad\x7dtag" →
       cleanSystemTags dec jp
         (JsVal.arr [JsVal.str "  http://x?q=shoes  ", JsVal.str "shoes",
           JsVal.str "\x7bbad\x7dtag"]) = "shoes,bad tag") := by
  refine ⟨?_, ?_, ?_, ?_, ?_⟩
  · intro dec jp input t h
    have h1 := mem_cleanSystemTagsList h
    have h2 := List.mem_filter.mp h1
    obtain ⟨v, _, hv⟩ := List.mem_map.mp h2.1
    have hlen := h2.2
    simp only [Bool.and_eq_true, decide_eq_true_eq] at hlen
    exact ⟨hv ▸ cleanOneTag_chars dec v, hlen.1, hlen.2⟩
  · intro dec jp input
    refine ⟨?_, ?_, rfl⟩
    · unfold cleanSystemTagsList
      by_cases he : (tagsOfInput jp input).isEmpty
      · simp [he]
      · simp only [he, if_false]
        exact dedupFirstAux_nodup [] _
    · unfold cleanSystemTagsList
      by_cases he : (tagsOfInput jp input).isEmpty
      · simp [he]
      · simp only [he, if_false]
        exact dedupFirstAux_sublist [] _
  · intro dec jp
    rfl
  · intro dec jp s v hv hna
    simp only [cleanSystemTags, cleanSystemTagsList, tagsOfInput, hv]
    cases v with
    | arr xs => exact absurd rfl (hna xs)
    | str t => rfl
    | other => rfl
  · intro dec jp h1 h2 h3
    simp only [cleanSystemTags, cleanSystemTagsList, tagsOfInput, cleanOneTag,
      List.map_cons, List.map_nil, h1, h2, h3]
    decide

/-- Witness for C3: the oracle hypotheses discharged by the identity decoder
and an always-throwing parser. -/
theorem C3_cleanSystemTags_witness :
    cleanSystemTags decId jpNone
      (JsVal.arr [JsVal.str "  http://x?q=shoes  ", JsVal.str "shoes",
        JsVal.str "\x7bbad\x7dtag"]) = "shoes,bad tag" ∧
    cleanSystemTags decId jpNone JsVal.other = "" :=
  ⟨C3_cleanSystemTags.2.2.2.2 decId jpNone rfl rfl rfl,
   C3_cleanSystemTags.2.2.1 decId jpNone⟩

-- ===========================================================================
-- C5: Incremental Sync vs Full Sync
-- ===========================================================================

/-- Counterexample for C5 as stated: on the same source row, the hset field
map written by Incremental Sync is NOT the same as Full Sync's — Incremental
Sync's map carries no creation-timestamp field at all, while Full Sync's
does (source lines 235-246 vs 182-194). -/
theorem C5_counterexample :
    (incSyncEntry decId jpNone prodA).1 ≠ (fullSyncEntry decId jpNone prodA).1 ∧
    (incSyncEntry decId jpNone prodA).1.createdAt = none ∧
    (fullSyncEntry decId jpNone prodA).1.createdAt = some JNum.nan := by
  refine ⟨?_, rfl, rfl⟩
  intro h
  exact absurd (congrArg IndexEntryMap.createdAt h) (by decide)

/-- Claim C5 (amended): for every record and every oracle behaviour,
Incremental Sync writes exactly the field map Full Sync writes for that
record except the creation-timestamp field, which only Full Sync's map
contains (with the `NaN` value produced because Full Sync's select list
omits `createdAt`); the suggestion entries are identical (score
`max(salesCount, 1)`); and Incremental Sync is a silent no-op when the
record no longer exists. -/
theorem C5_sync_equiv (dec : String → Option String) (jp : String → Option JsVal) :
    (∀ p : ProductRow,
       (incSyncEntry dec jp p).1 = { (fullSyncEntry dec jp p).1 with createdAt := none } ∧
       (incSyncEntry dec jp p).2 = (fullSyncEntry dec jp p).2) ∧
    syncProductToRedis dec jp none = none ∧
    (∀ p : ProductRow, syncProductToRedis dec jp (some p)
       = some ("product:" ++ p.id, incSyncEntry dec jp p)) ∧
    (∀ rows : List ProductRow, syncAllProductsToRedis dec jp rows
       = rows.map (fun p => ("product:" ++ p.id, fullSyncEntry dec jp p))) := by
  exact ⟨fun p => ⟨rfl, rfl⟩, rfl, fun p => rfl, fun rows => rfl⟩

-- ===========================================================================
-- C7: Index Schema Manager
-- ===========================================================================

/-- Counterexample for C7 as stated: an index whose metadata contains
`rating` and `location` but none of the other required field names (`name`,
`slug`, ...) is treated as current — no drop, no recreate, no Full Sync —
although the claim requires a rebuild whenever any required field name is
missing. -/
theorem C7_counterexample :
    ensureSearchIndexModel
      { info := some "rating location", dropErr := none, createErr := none }
      = { createdIndex := false, droppedIndex := false, ranFullSync := false,
          loggedError := false } ∧
    containsSub "rating location" "name" = false ∧
    containsSub "rating location" "slug" = false := by
  refine ⟨?_, by decide, by decide⟩
  decide

/-- Claim C7 (amended): on startup the index is created (and Full Sync run)
when absent or when `FT.INFO` fails; it is dropped and recreated (with Full
Sync) exactly when the metadata string lacks the substring `rating` or lacks
`location` — not when any other required field name is missing; it is a
no-op when both substrings are present; every error in the sequence is
absorbed (the model is a total function, and an error is only logged), and a
creation race whose message contains `already exists` is not logged as an
error (though it also skips the Full Sync call). -/
theorem C7_ensure_schema (env : EnsureEnv) :
    ((ensureSearchIndexModel env).droppedIndex = true ↔
      (∃ s, env.info = some s ∧
        (containsSub s "rating" = false ∨ containsSub s "location" = false) ∧
        env.dropErr = none)) ∧
    ((ensureSearchIndexModel env).ranFullSync = (ensureSearchIndexModel env).createdIndex) ∧
    ((ensureSearchIndexModel env).createdIndex = true ↔
      (env.createErr = none ∧
        (env.info = none ∨ ∃ s, env.info = some s ∧
          (containsSub s "rating" = false ∨ containsSub s "location" = false) ∧
          env.dropErr = none))) ∧
    (∀ s, env.info = some s → containsSub s "rating" = true →
      containsSub s "location" = true →
      ensureSearchIndexModel env =
        { createdIndex := false, droppedIndex := false, ranFullSync := false,
          loggedError := false }) ∧
    (env.info = none → ∀ m, env.createErr = some m →
      containsSub m "already exists" = true →
      (ensureSearchIndexModel env).loggedError = false) := by
  obtain ⟨info, dropErr, createErr⟩ := env
  cases info with
  | none =>
    cases createErr with
    | none => simp [ensureSearchIndexModel, createSearchIndexModel]
    | some m =>
      simp [ensureSearchIndexModel, createSearchIndexModel]
  | some s =>
    by_cases hmiss : containsSub s "rating" = false ∨ containsSub s "location" = false
    · have hcond : (!containsSub s "rating" || !containsSub s "location") = true := by
        rcases hmiss with h | h <;> simp [h]
      have hclose : containsSub s "rating" = true → containsSub s "location" = false := by
        intro h1
        rcases hmiss with h | h
        · rw [h1] at h
          exact absurd h (by simp)
        · exact h
      cases dropErr with
      | none =>
        cases createErr with
        | none =>
          simp [ensureSearchIndexModel, createSearchIndexModel, hcond, hmiss]
          exact hclose
        | some m =>
          simp [ensureSearchIndexModel, createSearchIndexModel, hcond, hmiss]
          exact hclose
      | some e =>
        cases createErr with
        | none =>
          simp [ensureSearchIndexModel, createSearchIndexModel, hcond, hmiss]
          exact hclose
        | some m =>
          simp [ensureSearchIndexModel, createSearchIndexModel, hcond, hmiss]
          exact hclose
    · push_neg at hmiss
      simp only [Bool.not_eq_false] at hmiss
      have hcond : (!containsSub s "rating" || !containsSub s "location") = false := by
        simp [hmiss.1, hmiss.2]
      simp [ensureSearchIndexModel, hcond, hmiss.1, hmiss.2]

/-- Witness for C7 at a concrete environment: metadata carrying both checked
substrings is kept as-is. -/
theorem C7_ensure_schema_witness :
    ensureSearchIndexModel
      { info := some "fields rating location etc", dropErr := none, createErr := none }
      = { createdIndex := false, droppedIndex := false, ranFullSync := false,
          loggedError := false } :=
  (C7_ensure_schema _).2.2.2.1 "fields rating location etc" rfl (by decide) (by decide)

-- ===========================================================================
-- C10: findOnePublic status gating
-- ===========================================================================

/-- Claim C10: `findOnePublic` returns a product only when its status is
ACTIVE: a cached entry is served only if ACTIVE; a non-ACTIVE cached entry
falls through to the source-store lookup; and the lookup throws not-found
both when nothing matches and when the match is non-ACTIVE, while an ACTIVE
match is mapped and returned. -/
theorem C10_findOnePublic :
    (∀ (c : Option DetailCacheEntry) (d : Option ProductDetail) (r : DetailResult),
       findOnePublic c d = .ok r → detailStatus r = "ACTIVE") ∧
    (∀ (ce : DetailCacheEntry) (d : Option ProductDetail), ce.status ≠ "ACTIVE" →
       findOnePublic (some ce) d = findOneRest d) ∧
    (findOneRest none = .error "Sản phẩm không tồn tại") ∧
    (∀ p : ProductDetail, p.status ≠ "ACTIVE" →
       findOneRest (some p) = .error "Sản phẩm không tồn tại") ∧
    (∀ p : ProductDetail, p.status = "ACTIVE" →
       findOnePublic none (some p) = .ok (.mapped (mapDetail p))) := by
  have hrest : ∀ (d : Option ProductDetail) (r : DetailResult),
      findOneRest d = .ok r → detailStatus r = "ACTIVE" := by
    intro d r h
    cases d with
    | none => simp [findOneRest] at h
    | some p =>
      by_cases hs : p.status = "ACTIVE"
      · simp [findOneRest, hs] at h
        subst h
        simpa [detailStatus, mapDetail]
      · simp [findOneRest, hs] at h
  refine ⟨?_, ?_, rfl, ?_, ?_⟩
  · intro c d r h
    cases c with
    | none => exact hrest d r h
    | some ce =>
      by_cases hs : ce.status = "ACTIVE"
      · simp [findOnePublic, hs] at h
        subst h
        simpa [detailStatus]
      · simp only [findOnePublic, beq_iff_eq, hs, if_false] at h
        exact hrest d r h
  · intro ce d hs
    simp [findOnePublic, hs]
  · intro p hs
    simp [findOneRest, hs]
  · intro p hs
    simp [findOnePublic, findOneRest, hs]

/-- Witness for C10: a non-ACTIVE cached entry with no source-store match
yields not-found. -/
theorem C10_findOnePublic_witness :
    findOnePublic (some { status := "INACTIVE", payload := JsVal.other }) none
      = .error "Sản phẩm không tồn tại" := by
  rw [C10_findOnePublic.2.1 { status := "INACTIVE", payload := JsVal.other } none (by decide)]
  exact C10_findOnePublic.2.2.1

-- ===========================================================================
-- Helper lemmas: Query Planner reductions
-- ===========================================================================

theorem dbPhase_ftArgs (env : Env) (q : FindAllQuery) (page limit skip : Int)
    (key : String) (fa : Option (String × Int × Int × String × String)) :
    (dbPhase env q page limit skip key fa).ftArgs = fa := by
  simp only [dbPhase]
  rcases hdb : env.dbQuery (dbWhereOf q) limit skip (dbOrderOf q) with e | ⟨rows, total⟩
  · simp only [hdb]
  · simp only [hdb]
    rcases hm : mapDbRows env.jparse rows with e | mapped
    · simp only [hm]
    · simp only [hm]
      by_cases hc : (decide (0 < (dbPageOf mapped total page limit).data.length)
          && !truthyS q.search) = true
      · simp only [hc, if_true]
        rcases hcs : env.cacheSet key 60 with e | u
        · simp only [hcs]
        · simp only [hcs]
      · simp only [hc, Bool.false_eq_true, if_false]

theorem dbPhase_dbArgs (env : Env) (q : FindAllQuery) (page limit skip : Int)
    (key : String) (fa : Option (String × Int × Int × String × String)) :
    (dbPhase env q page limit skip key fa).dbArgs
      = some (dbWhereOf q, limit, skip, dbOrderOf q) := by
  simp only [dbPhase]
  rcases hdb : env.dbQuery (dbWhereOf q) limit skip (dbOrderOf q) with e | ⟨rows, total⟩
  · simp only [hdb]
  · simp only [hdb]
    rcases hm : mapDbRows env.jparse rows with e | mapped
    · simp only [hm]
    · simp only [hm]
      by_cases hc : (decide (0 < (dbPageOf mapped total page limit).data.length)
          && !truthyS q.search) = true
      · simp only [hc, if_true]
        rcases hcs : env.cacheSet key 60 with e | u
        · simp only [hcs]
        · simp only [hcs]
      · simp only [hc, Bool.false_eq_true, if_false]

theorem dbPhase_result_dbError (env : Env) (q : FindAllQuery) (page limit skip : Int)
    (key : String) (fa : Option (String × Int × Int × String × String)) (e : String)
    (h : env.dbQuery (dbWhereOf q) limit skip (dbOrderOf q) = .error e) :
    (dbPhase env q page limit skip key fa).result = .ok (emptyPage page limit, none) := by
  simp only [dbPhase, h]

theorem dbPhase_result_mapError (env : Env) (q : FindAllQuery) (page limit skip : Int)
    (key : String) (fa : Option (String × Int × Int × String × String))
    (rows : List DbRow) (total : Int) (e : String)
    (h : env.dbQuery (dbWhereOf q) limit skip (dbOrderOf q) = .ok (rows, total))
    (hm : mapDbRows env.jparse rows = .error e) :
    (dbPhase env q page limit skip key fa).result = .ok (emptyPage page limit, none) := by
  simp only [dbPhase, h, hm]

theorem dbPhase_result_noWrite (env : Env) (q : FindAllQuery) (page limit skip : Int)
    (key : String) (fa : Option (String × Int × Int × String × String))
    (rows : List DbRow) (total : Int) (mapped : List MappedDbRow)
    (h : env.dbQuery (dbWhereOf q) limit skip (dbOrderOf q) = .ok (rows, total))
    (hm : mapDbRows env.jparse rows = .ok mapped)
    (hc : mapped = [] ∨ truthyS q.search = true) :
    (dbPhase env q page limit skip key fa).result
      = .ok (dbPageOf mapped total page limit, none) := by
  have hcond : (decide (0 < (dbPageOf mapped total page limit).data.length)
      && !truthyS q.search) = false := by
    rcases hc with h1 | h1
    · subst h1
      simp [dbPageOf]
    · simp [h1]
  simp only [dbPhase, h, hm, hcond, Bool.false_eq_true, if_false]

theorem dbPhase_result_write (env : Env) (q : FindAllQuery) (page limit skip : Int)
    (key : String) (fa : Option (String × Int × Int × String × String))
    (rows : List DbRow) (total : Int) (mapped : List MappedDbRow)
    (h : env.dbQuery (dbWhereOf q) limit skip (dbOrderOf q) = .ok (rows, total))
    (hm : mapDbRows env.jparse rows = .ok mapped)
    (hne : mapped ≠ []) (hs : truthyS q.search = false)
    (hset : env.cacheSet key 60 = .ok ()) :
    (dbPhase env q page limit skip key fa).result
      = .ok (dbPageOf mapped total page limit,
             some { key := key, page := dbPageOf mapped total page limit, ttl := 60 }) := by
  have hcond : (decide (0 < (dbPageOf mapped total page limit).data.length)
      && !truthyS q.search) = true := by
    simp [dbPageOf, hs, List.length_pos, hne]
  simp only [dbPhase, h, hm, hcond, if_true, hset]

theorem dbPhase_result_writeError (env : Env) (q : FindAllQuery) (page limit skip : Int)
    (key : String) (fa : Option (String × Int × Int × String × String))
    (rows : List DbRow) (total : Int) (mapped : List MappedDbRow) (e : String)
    (h : env.dbQuery (dbWhereOf q) limit skip (dbOrderOf q) = .ok (rows, total))
    (hm : mapDbRows env.jparse rows = .ok mapped)
    (hne : mapped ≠ []) (hs : truthyS q.search = false)
    (hset : env.cacheSet key 60 = .error e) :
    (dbPhase env q page limit skip key fa).result = .error e := by
  have hcond : (decide (0 < (dbPageOf mapped total page limit).data.length)
      && !truthyS q.search) = true := by
    simp [dbPageOf, hs, List.length_pos, hne]
  simp only [dbPhase, h, hm, hcond, if_true, hset]

theorem dbPhase_result_write_inv (env : Env) (q : FindAllQuery) (page limit skip : Int)
    (key : String) (fa : Option (String × Int × Int × String × String))
    (p : PageResult) (w : CacheWrite)
    (h : (dbPhase env q page limit skip key fa).result = .ok (p, some w)) :
    w.ttl = 60 ∧ w.key = key ∧ w.page = p ∧ p.data ≠ [] ∧ truthyS q.search = false := by
  rw [show (dbPhase env q page limit skip key fa)
      = dbPhase env q page limit skip key fa from rfl] at h
  simp only [dbPhase] at h
  rcases hdb : env.dbQuery (dbWhereOf q) limit skip (dbOrderOf q) with e | ⟨rows, total⟩ <;>
    simp only [hdb] at h
  · simp at h
  · rcases hm : mapDbRows env.jparse rows with e | mapped <;> simp only [hm] at h
    · simp at h
    · by_cases hc : (decide (0 < (dbPageOf mapped total page limit).data.length)
          && !truthyS q.search) = true
      · simp only [hc, if_true] at h
        rcases hcs : env.cacheSet key 60 with e | u <;> simp only [hcs] at h
        · simp at h
        · simp only [Except.ok.injEq, Prod.mk.injEq, Option.some.injEq] at h
          obtain ⟨hp, hw⟩ := h
          subst hp
          subst hw
          simp only [Bool.and_eq_true, decide_eq_true_eq, Bool.not_eq_true'] at hc
          refine ⟨rfl, rfl, rfl, ?_, hc.2⟩
          intro hnil
          have : (dbPageOf mapped total page limit).data.length = 0 := by
            rw [hnil]; rfl
          omega
      · simp only [hc, Bool.false_eq_true, if_false] at h
        simp at h

theorem findAllPublic_noRedis (env : Env) (q : FindAllQuery)
    (h : shouldUseRedisB q = false) :
    findAllPublic env q
      = dbPhase env q (pageOfQ q) (limitOfQ q) (skipOfQ q) (cacheKeyOf env q) none := by
  simp only [findAllPublic, h, Bool.false_eq_true, if_false]

theorem findAllPublic_ftError (env : Env) (q : FindAllQuery) (e : String)
    (huse : shouldUseRedisB q = true)
    (herr : env.ftSearch (renderFtQuery (ftClauses q)) (skipOfQ q) (limitOfQ q)
      (ftSortOf q).1 (ftSortOf q).2 = .error e) :
    findAllPublic env q
      = dbPhase env q (pageOfQ q) (limitOfQ q) (skipOfQ q) (cacheKeyOf env q)
          (some (renderFtQuery (ftClauses q), skipOfQ q, limitOfQ q,
            (ftSortOf q).1, (ftSortOf q).2)) := by
  simp only [findAllPublic, huse, if_true, herr]

theorem findAllPublic_parseError (env : Env) (q : FindAllQuery) (reply : List Resp)
    (e : String) (huse : shouldUseRedisB q = true)
    (hok : env.ftSearch (renderFtQuery (ftClauses q)) (skipOfQ q) (limitOfQ q)
      (ftSortOf q).1 (ftSortOf q).2 = .ok reply)
    (hp : parseFtProducts env.jparse reply = .error e) :
    findAllPublic env q
      = dbPhase env q (pageOfQ q) (limitOfQ q) (skipOfQ q) (cacheKeyOf env q)
          (some (renderFtQuery (ftClauses q), skipOfQ q, limitOfQ q,
            (ftSortOf q).1, (ftSortOf q).2)) := by
  simp only [findAllPublic, huse, if_true, hok, hp]

theorem findAllPublic_idxOk (env : Env) (q : FindAllQuery) (reply : List Resp)
    (items : List JsVal) (huse : shouldUseRedisB q = true)
    (hok : env.ftSearch (renderFtQuery (ftClauses q)) (skipOfQ q) (limitOfQ q)
      (ftSortOf q).1 (ftSortOf q).2 = .ok reply)
    (hp : parseFtProducts env.jparse reply = .ok items) :
    findAllPublic env q
      = { result := .ok (pageOfIndex reply items (pageOfQ q) (limitOfQ q), none),
          ftArgs := some (renderFtQuery (ftClauses q), skipOfQ q, limitOfQ q,
            (ftSortOf q).1, (ftSortOf q).2),
          dbArgs := none } := by
  simp only [findAllPublic, huse, if_true, hok, hp]

theorem findAllPublic_ftArgs_eq (env : Env) (q : FindAllQuery) :
    (findAllPublic env q).ftArgs
      = if shouldUseRedisB q then
          some (renderFtQuery (ftClauses q), skipOfQ q, limitOfQ q,
            (ftSortOf q).1, (ftSortOf q).2)
        else none := by
  by_cases huse : shouldUseRedisB q = true
  · simp only [huse, if_true]
    rcases hft : env.ftSearch (renderFtQuery (ftClauses q)) (skipOfQ q) (limitOfQ q)
        (ftSortOf q).1 (ftSortOf q).2 with e | reply
    · rw [findAllPublic_ftError env q e huse hft, dbPhase_ftArgs]
    · rcases hp : parseFtProducts env.jparse reply with e | items
      · rw [findAllPublic_parseError env q reply e huse hft hp, dbPhase_ftArgs]
      · rw [findAllPublic_idxOk env q reply items huse hft hp]
  · have huse' : shouldUseRedisB q = false := by simpa using huse
    rw [findAllPublic_noRedis env q huse', dbPhase_ftArgs]
    simp [huse']

-- ===========================================================================
-- C2: the Result Cache is never read
-- ===========================================================================

/-- Claim C2 (code bug): `findAllPublic` computes the hash key (source line
263) but never issues a `get` on it — the Result Cache is write-only on this
path, so a live cached entry is never served.  Formally: the entire outcome
of `findAllPublic` is independent of the cache-read oracle. -/
theorem C2_cache_never_read (e1 e2 : Env) (q : FindAllQuery)
    (hft : e1.ftSearch = e2.ftSearch) (hdb : e1.dbQuery = e2.dbQuery)
    (hset : e1.cacheSet = e2.cacheSet) (hmd5 : e1.md5 = e2.md5)
    (hjp : e1.jparse = e2.jparse) :
    findAllPublic e1 q = findAllPublic e2 q := by
  obtain ⟨f1, d1, g1, s1, m1, j1⟩ := e1
  obtain ⟨f2, d2, g2, s2, m2, j2⟩ := e2
  simp only at hft hdb hset hmd5 hjp
  subst hft; subst hdb; subst hset; subst hmd5; subst hjp
  rfl

/-- Witness for C2: changing only the cached value under the request's hash
key leaves the response unchanged (the live entry is ignored). -/
theorem C2_cache_never_read_witness :
    findAllPublic envDbOk { page := some 1 }
      = findAllPublic { envDbOk with cacheGet := fun _ => some "cached page" }
          { page := some 1 } :=
  C2_cache_never_read _ _ _ rfl rfl rfl rfl rfl

-- ===========================================================================
-- C4: the index-path decision rule
-- ===========================================================================

/-- Counterexample for C4 as stated: a request whose only parameter is the
present value `minPrice = 0` satisfies the spec's presence-based decision
rule, yet the code's truthiness test sends it straight to the source store
(`0` is falsy), issuing no index call. -/
theorem C4_counterexample :
    spec_indexPathCond qMinZero = true ∧
    shouldUseRedisB qMinZero = false ∧
    (findAllPublic envRaise qMinZero).ftArgs = none ∧
    (findAllPublic envRaise qMinZero).dbArgs
      = some (dbWhereOf qMinZero, 20, 0, DbOrder.salesCountDesc) := by
  refine ⟨by decide, by decide, ?_, ?_⟩ <;> rfl

theorem truthyS_iff (o : Option String) : truthyS o = true ↔ ∃ t, o = some t ∧ t ≠ "" := by
  cases o with
  | none => simp [truthyS]
  | some t => simp [truthyS]

theorem truthyN_iff (o : Option Int) : truthyN o = true ↔ ∃ v, o = some v ∧ v ≠ 0 := by
  cases o with
  | none => simp [truthyN]
  | some v => simp [truthyN]

theorem locMatch_iff (o : Option (List String)) :
    (match o with
     | some l => decide (0 < l.length)
     | none => false) = true ↔ ∃ l, o = some l ∧ 0 < l.length := by
  cases o with
  | none => simp
  | some l => simp

/-- Claim C4 (amended): the index path is taken if and only if a non-empty
trimmed free-text term is present, or any of tag / minPrice / maxPrice /
rating is present with a truthy value (non-empty string, non-zero number),
or a non-empty locations list is present; otherwise the request goes
straight to source-store pagination. -/
theorem C4_index_path_decision (env : Env) (q : FindAllQuery) :
    ((findAllPublic env q).ftArgs.isSome = true ↔
      (0 < (searchTrim q).length ∨ (∃ t, q.tag = some t ∧ t ≠ "") ∨
       (∃ v, q.minPrice = some v ∧ v ≠ 0) ∨ (∃ v, q.maxPrice = some v ∧ v ≠ 0) ∨
       (∃ v, q.rating = some v ∧ v ≠ 0) ∨ (∃ l, q.locations = some l ∧ 0 < l.length))) ∧
    ((findAllPublic env q).ftArgs.isSome = false →
       (findAllPublic env q).dbArgs
         = some (dbWhereOf q, limitOfQ q, skipOfQ q, dbOrderOf q)) := by
  have hchar : (findAllPublic env q).ftArgs.isSome = shouldUseRedisB q := by
    rw [findAllPublic_ftArgs_eq]
    by_cases h : shouldUseRedisB q = true <;> simp [h]
  constructor
  · rw [hchar]
    simp only [shouldUseRedisB, Bool.or_eq_true, decide_eq_true_eq,
      truthyS_iff, truthyN_iff, locMatch_iff]
    simp only [or_assoc]
  · intro hnone
    have huse : shouldUseRedisB q = false := by rw [← hchar]; exact hnone
    rw [findAllPublic_noRedis env q huse, dbPhase_dbArgs]

/-- Witness for C4 at a concrete request: a lone tag filter takes the index
path. -/
theorem C4_index_path_decision_witness :
    (findAllPublic envRaise qTagX).ftArgs.isSome = true :=
  (C4_index_path_decision envRaise qTagX).1.mpr
    (Or.inr (Or.inl ⟨"x", rfl, by decide⟩))

theorem findAllPublic_cases (env : Env) (q : FindAllQuery) :
    (∃ fa, findAllPublic env q
       = dbPhase env q (pageOfQ q) (limitOfQ q) (skipOfQ q) (cacheKeyOf env q) fa) ∨
    (∃ reply items,
       findAllPublic env q
         = { result := .ok (pageOfIndex reply items (pageOfQ q) (limitOfQ q), none),
             ftArgs := some (renderFtQuery (ftClauses q), skipOfQ q, limitOfQ q,
               (ftSortOf q).1, (ftSortOf q).2),
             dbArgs := none }) := by
  by_cases huse : shouldUseRedisB q = true
  · rcases hft : env.ftSearch (renderFtQuery (ftClauses q)) (skipOfQ q) (limitOfQ q)
        (ftSortOf q).1 (ftSortOf q).2 with e | reply
    · exact Or.inl ⟨_, findAllPublic_ftError env q e huse hft⟩
    · rcases hp : parseFtProducts env.jparse reply with e | items
      · exact Or.inl ⟨_, findAllPublic_parseError env q reply e huse hft hp⟩
      · exact Or.inr ⟨reply, items, findAllPublic_idxOk env q reply items huse hft hp⟩
  · exact Or.inl ⟨none, findAllPublic_noRedis env q (by simpa using huse)⟩

-- ===========================================================================
-- C8: result-cache write policy
-- ===========================================================================

/-- Claim C8: `findAllPublic` never writes a Result Cache entry when the
request carries a (truthy) free-text search term or when the produced data
list is empty; a write — always with TTL 60 under the request-hash key —
happens exactly for source-store-produced pages with non-empty data and no
search term (and a healthy cache), and index-path results are never
cache-written. -/
theorem C8_cache_write_policy (env : Env) (q : FindAllQuery) :
    (∀ p w, (findAllPublic env q).result = .ok (p, some w) →
       w.ttl = 60 ∧ w.key = cacheKeyOf env q ∧ w.page = p ∧ p.data ≠ [] ∧
       truthyS q.search = false ∧ (findAllPublic env q).dbArgs.isSome = true) ∧
    ((findAllPublic env q).dbArgs = none →
       ∀ pr, (findAllPublic env q).result = .ok pr → pr.2 = none) ∧
    (∀ rows total mapped,
       (shouldUseRedisB q = false ∨
        (∃ e, env.ftSearch (renderFtQuery (ftClauses q)) (skipOfQ q) (limitOfQ q)
          (ftSortOf q).1 (ftSortOf q).2 = .error e) ∨
        (∃ reply e, env.ftSearch (renderFtQuery (ftClauses q)) (skipOfQ q) (limitOfQ q)
          (ftSortOf q).1 (ftSortOf q).2 = .ok reply ∧
          parseFtProducts env.jparse reply = .error e)) →
       env.dbQuery (dbWhereOf q) (limitOfQ q) (skipOfQ q) (dbOrderOf q) = .ok (rows, total) →
       mapDbRows env.jparse rows = .ok mapped → mapped ≠ [] → truthyS q.search = false →
       env.cacheSet (cacheKeyOf env q) 60 = .ok () →
       (findAllPublic env q).result
         = .ok (dbPageOf mapped total (pageOfQ q) (limitOfQ q),
                some { key := cacheKeyOf env q,
                       page := dbPageOf mapped total (pageOfQ q) (limitOfQ q),
                       ttl := 60 })) := by
  refine ⟨?_, ?_, ?_⟩
  · intro p w hres
    rcases findAllPublic_cases env q with ⟨fa, hcase⟩ | ⟨reply, items, hcase⟩
    · rw [hcase] at hres ⊢
      have h1 := dbPhase_result_write_inv env q _ _ _ _ fa p w hres
      rw [dbPhase_dbArgs]
      exact ⟨h1.1, h1.2.1, h1.2.2.1, h1.2.2.2.1, h1.2.2.2.2, rfl⟩
    · rw [hcase] at hres
      simp at hres
  · intro hargs pr hres
    rcases findAllPublic_cases env q with ⟨fa, hcase⟩ | ⟨reply, items, hcase⟩
    · rw [hcase, dbPhase_dbArgs] at hargs
      exact absurd hargs (by simp)
    · rw [hcase] at hres
      simp only [Except.ok.injEq] at hres
      rw [← hres]
  · intro rows total mapped hpath hdb hm hne hs hset
    rcases hpath with huse | ⟨e, hft⟩ | ⟨reply, e, hft, hp⟩
    · rw [findAllPublic_noRedis env q huse]
      exact dbPhase_result_write env q _ _ _ _ none rows total mapped hdb hm hne hs hset
    · by_cases hu : shouldUseRedisB q = true
      · rw [findAllPublic_ftError env q e hu hft]
        exact dbPhase_result_write env q _ _ _ _ _ rows total mapped hdb hm hne hs hset
      · rw [findAllPublic_noRedis env q (by simpa using hu)]
        exact dbPhase_result_write env q _ _ _ _ none rows total mapped hdb hm hne hs hset
    · by_cases hu : shouldUseRedisB q = true
      · rw [findAllPublic_parseError env q reply e hu hft hp]
        exact dbPhase_result_write env q _ _ _ _ _ rows total mapped hdb hm hne hs hset
      · rw [findAllPublic_noRedis env q (by simpa using hu)]
        exact dbPhase_result_write env q _ _ _ _ none rows total mapped hdb hm hne hs hset

/-- Witness for C8: a browse-all request on a dead index with one fallback
row is cache-written with TTL 60, and an index-path success is not. -/
theorem C8_cache_write_policy_witness :
    (findAllPublic envDbOk { page := some 1 }).result
      = .ok (dbPageOf [{ base := rowA, price := 5, originalPrice := 0,
                         location := none, images := JsVal.arr [] }] 1 1 20,
             some { key := "search:res:h",
                    page := dbPageOf [{ base := rowA, price := 5, originalPrice := 0,
                                        location := none, images := JsVal.arr [] }] 1 1 20,
                    ttl := 60 }) ∧
    (∀ pr, (findAllPublic envOkIdx qTagX).result = .ok pr → pr.2 = none) := by
  constructor
  · exact (C8_cache_write_policy envDbOk { page := some 1 }).2.2
      [rowA] 1 [{ base := rowA, price := 5, originalPrice := 0,
                  location := none, images := JsVal.arr [] }]
      (Or.inl (by decide)) rfl rfl (by simp) (by decide) rfl
  · exact (C8_cache_write_policy envOkIdx qTagX).2.1 rfl

-- ===========================================================================
-- C6: the ACTIVE-status conjunct
-- ===========================================================================

theorem renderFold_statusHead (l : List FtClause) :
    ∀ acc : String, ∃ t : String,
      l.foldl (fun a cl => a ++ " " ++ renderFtClause cl) acc = acc ++ t := by
  induction l with
  | nil =>
    intro acc
    exact ⟨"", (String.append_empty acc).symm⟩
  | cons c rest ih =>
    intro acc
    obtain ⟨t, ht⟩ := ih (acc ++ " " ++ renderFtClause c)
    refine ⟨" " ++ renderFtClause c ++ t, ?_⟩
    simp only [List.foldl_cons, ht]
    rw [String.append_assoc, String.append_assoc, String.append_assoc]

theorem renderFtQuery_statusHead (q : FindAllQuery) :
    ∃ t, renderFtQuery (ftClauses q) = "@status:\x7bACTIVE\x7d" ++ t := by
  show ∃ t, (condChunk q ++ tagChunk q ++ locChunk q ++ priceChunk q ++
    ratingChunk q).foldl (fun a cl => a ++ " " ++ renderFtClause cl)
      (renderFtClause FtClause.statusActive) = _ ++ t
  exact renderFold_statusHead _ _

/-- Claim C6: every index-path query string issued by `findAllPublic` starts
with the `@status:\x7bACTIVE\x7d` conjunct, and — under the spec's tag-clause
semantics for the Index Store, the rest of the clause semantics being
arbitrary — an IndexEntry whose status tag is not `ACTIVE` (for example an
item re-synced after an ACTIVE → INACTIVE transition) is in no index query
result, even though the entry still exists. -/
theorem C6_status_filter :
    (∀ (env : Env) (q : FindAllQuery) (s : String) (off lim : Int) (f d : String),
       (findAllPublic env q).ftArgs = some (s, off, lim, f, d) →
       ∃ t, s = "@status:\x7bACTIVE\x7d" ++ t) ∧
    (∀ (sem : FtClause → IndexEntryMap → Bool),
       (∀ e, sem FtClause.statusActive e = (e.status == "ACTIVE")) →
       ∀ (q : FindAllQuery) (entries : List IndexEntryMap) (e : IndexEntryMap),
         e.status ≠ "ACTIVE" → e ∉ ftSearchEval sem q entries) := by
  constructor
  · intro env q s off lim f d h
    rw [findAllPublic_ftArgs_eq] at h
    by_cases huse : shouldUseRedisB q = true
    · simp only [huse, if_true, Option.some.injEq, Prod.mk.injEq] at h
      rw [← h.1]
      exact renderFtQuery_statusHead q
    · simp [huse] at h
  · intro sem hsem q entries e hne hmem
    have h1 := (List.mem_filter.mp hmem).2
    have h2 : sem FtClause.statusActive e = true := by
      have := (List.all_eq_true.mp h1) FtClause.statusActive (by
        show FtClause.statusActive ∈ ftClauses q
        exact List.mem_cons_self _ _)
      simpa using this
    rw [hsem e] at h2
    exact hne (by simpa using h2)

/-- Witness for C6: an item re-synced with status INACTIVE is excluded from
a concrete evaluated query under a concrete clause semantics. -/
theorem C6_status_filter_witness :
    (∃ t, "@status:\x7bACTIVE\x7d @systemTags:\x7bx\x7d" = "@status:\x7bACTIVE\x7d" ++ t) ∧
    (incSyncEntry decId jpNone prodInactive).1 ∉
      ftSearchEval
        (fun c e => match c with
          | FtClause.statusActive => e.status == "ACTIVE"
          | _ => true)
        qTagX [(incSyncEntry decId jpNone prodInactive).1] := by
  constructor
  · exact C6_status_filter.1 envOkIdx qTagX
      "@status:\x7bACTIVE\x7d @systemTags:\x7bx\x7d" 0 20 "salesCount" "DESC" rfl
  · exact C6_status_filter.2 _ (fun e => rfl) qTagX _ _ (by decide)

-- ===========================================================================
-- C1: fallback equivalence
-- ===========================================================================

theorem ftPriceOk_append (a b : List FtClause) (p : Int) :
    ftPriceOk (a ++ b) p = (ftPriceOk a p && ftPriceOk b p) :=
  List.all_append

theorem ftPriceOk_condChunk (q : FindAllQuery) (p : Int) :
    ftPriceOk (condChunk q) p = true := by
  unfold condChunk
  dsimp only
  split_ifs <;> simp [ftPriceOk, ftClausePriceOk]

theorem ftPriceOk_tagChunk (q : FindAllQuery) (p : Int) :
    ftPriceOk (tagChunk q) p = true := by
  unfold tagChunk
  cases q.tag with
  | none => rfl
  | some t =>
    dsimp only
    split_ifs <;> simp [ftPriceOk, ftClausePriceOk]

theorem ftPriceOk_locChunk (q : FindAllQuery) (p : Int) :
    ftPriceOk (locChunk q) p = true := by
  unfold locChunk
  cases q.locations with
  | none => rfl
  | some l =>
    dsimp only
    split_ifs <;> simp [ftPriceOk, ftClausePriceOk]

theorem ftPriceOk_ratingChunk (q : FindAllQuery) (p : Int) :
    ftPriceOk (ratingChunk q) p = true := by
  unfold ratingChunk
  cases q.rating with
  | none => rfl
  | some r =>
    dsimp only
    split_ifs <;> simp [ftPriceOk, ftClausePriceOk]

theorem ftPriceOk_ftClauses (q : FindAllQuery) (p : Int) :
    ftPriceOk (ftClauses q) p = ftPriceOk (priceChunk q) p := by
  have hsplit : ftClauses q
      = [FtClause.statusActive] ++ (condChunk q ++ tagChunk q ++ locChunk q ++
          priceChunk q ++ ratingChunk q) := rfl
  rw [hsplit, ftPriceOk_append, ftPriceOk_append, ftPriceOk_append,
    ftPriceOk_append, ftPriceOk_append, ftPriceOk_condChunk, ftPriceOk_tagChunk,
    ftPriceOk_locChunk, ftPriceOk_ratingChunk]
  simp [ftPriceOk, ftClausePriceOk]

theorem ftRatingOk_append (a b : List FtClause) (r : Int) :
    ftRatingOk (a ++ b) r = (ftRatingOk a r && ftRatingOk b r) :=
  List.all_append

theorem ftRatingOk_condChunk (q : FindAllQuery) (r : Int) :
    ftRatingOk (condChunk q) r = true := by
  unfold condChunk
  dsimp only
  split_ifs <;> simp [ftRatingOk, ftClauseRatingOk]

theorem ftRatingOk_tagChunk (q : FindAllQuery) (r : Int) :
    ftRatingOk (tagChunk q) r = true := by
  unfold tagChunk
  cases q.tag with
  | none => rfl
  | some t =>
    dsimp only
    split_ifs <;> simp [ftRatingOk, ftClauseRatingOk]

theorem ftRatingOk_locChunk (q : FindAllQuery) (r : Int) :
    ftRatingOk (locChunk q) r = true := by
  unfold locChunk
  cases q.locations with
  | none => rfl
  | some l =>
    dsimp only
    split_ifs <;> simp [ftRatingOk, ftClauseRatingOk]

theorem ftRatingOk_priceChunk (q : FindAllQuery) (r : Int) :
    ftRatingOk (priceChunk q) r = true := by
  unfold priceChunk
  split_ifs <;> simp [ftRatingOk, ftClauseRatingOk]

theorem ftRatingOk_ftClauses (q : FindAllQuery) (r : Int) :
    ftRatingOk (ftClauses q) r = ftRatingOk (ratingChunk q) r := by
  have hsplit : ftClauses q
      = [FtClause.statusActive] ++ (condChunk q ++ tagChunk q ++ locChunk q ++
          priceChunk q ++ ratingChunk q) := rfl
  rw [hsplit, ftRatingOk_append, ftRatingOk_append, ftRatingOk_append,
    ftRatingOk_append, ftRatingOk_append, ftRatingOk_condChunk, ftRatingOk_tagChunk,
    ftRatingOk_locChunk, ftRatingOk_priceChunk]
  simp [ftRatingOk, ftClauseRatingOk]

theorem price_translation (q : FindAllQuery) (p : Int)
    (hmin : q.minPrice ≠ some 0) (hmax : q.maxPrice ≠ some 0) :
    ftPriceOk (ftClauses q) p = dbPriceOk (dbWhereOf q) p := by
  rw [ftPriceOk_ftClauses]
  rcases hm : q.minPrice with _ | v
  · rcases hx : q.maxPrice with _ | w
    · simp [priceChunk, hm, hx, ftPriceOk, dbPriceOk, dbWhereOf]
    · have hw : w ≠ 0 := by rintro rfl; exact hmax hx
      simp [priceChunk, hm, hx, ftPriceOk, ftClausePriceOk, dbPriceOk, dbWhereOf, hw]
  · have hv : v ≠ 0 := by rintro rfl; exact hmin hm
    rcases hx : q.maxPrice with _ | w
    · simp [priceChunk, hm, hx, ftPriceOk, ftClausePriceOk, dbPriceOk, dbWhereOf, hv]
    · have hw : w ≠ 0 := by rintro rfl; exact hmax hx
      simp [priceChunk, hm, hx, ftPriceOk, ftClausePriceOk, dbPriceOk, dbWhereOf, hv, hw]

theorem rating_translation (q : FindAllQuery) (r : Int) :
    ftRatingOk (ftClauses q) r = dbRatingOk (dbWhereOf q) r := by
  rw [ftRatingOk_ftClauses]
  rcases hr : q.rating with _ | v
  · simp [ratingChunk, hr, ftRatingOk, dbRatingOk, dbWhereOf]
  · by_cases hv : v = 0
    · subst hv
      simp [ratingChunk, hr, ftRatingOk, dbRatingOk, dbWhereOf]
    · simp [ratingChunk, hr, ftRatingOk, ftClauseRatingOk, dbRatingOk, dbWhereOf, hv]

theorem sort_translation (q : FindAllQuery) (h : q.sort ≠ some "newest") :
    dbOrderOf q = sortPairToDb (ftSortOf q) := by
  unfold dbOrderOf ftSortOf
  rcases hs : q.sort with _ | s
  · simp [sortPairToDb]
  · have hnew : s ≠ "newest" := by rintro rfl; exact h hs
    by_cases h1 : s = "price_asc"
    · subst h1
      simp [sortPairToDb]
    · by_cases h2 : s = "price_desc"
      · subst h2
        simp [sortPairToDb]
      · simp [h1, h2, hnew, sortPairToDb]

/-- Counterexample for C1 as stated, at explicit inputs:
(1) the fallback CAN raise to the caller — with the index store (and hence
also the result cache) down and a healthy source store, a tag-only request
falls back, succeeds, and then the uncaught trailing `redis.set` rejection
propagates (source lines 431-433 have no try/catch);
(2) a malformed/empty index reply does NOT cause re-execution against the
source store — the empty array reply is returned as a structurally broken
page (`total` is `undefined`, `last_page` is `NaN`) with no fallback query
issued;
(3) the predicate translation is not identical for a present-but-zero price
bound — with `maxPrice = 0` the index query keeps the bound (price ≤ 0)
while the fallback drops it (price 100 passes). -/
theorem C1_counterexample :
    (findAllPublic envRaise qTagX).result = .error "Connection is closed." ∧
    (findAllPublic envEmptyReply qTagX).dbArgs = none ∧
    (findAllPublic envEmptyReply qTagX).result
      = .ok ({ data := [],
               meta := { total := Resp.undef, page := 1, limit := 20,
                         lastPage := Resp.nanNum } }, none) ∧
    ftPriceOk (ftClauses qMaxZero) 100 = false ∧
    dbPriceOk (dbWhereOf qMaxZero) 100 = true := by
  refine ⟨rfl, rfl, rfl, by decide, by decide⟩

/-- Claim C1 (amended): a thrown error on the index path is caught and the
request re-executed against the source store with the translated predicate,
the same `skip`/`limit` pagination and the analogous sort mapping (identical
for every sort key except `newest`); the range/equality translation is
identical whenever each price bound is absent or nonzero (a zero bound is
dropped by the fallback), and the rating translation is always identical;
the fallback returns the empty page when the source-store query (or its row
mapping) fails; a successful non-empty fallback page with no truthy search
term triggers the result-cache write, whose own failure is uncaught and
raises to the caller — so the fallback does not raise except through that
trailing cache write, and an index reply that is malformed without throwing
is returned as-is with no fallback at all. -/
theorem C1_fallback (env : Env) (q : FindAllQuery) (msg : String)
    (huse : shouldUseRedisB q = true)
    (herr : env.ftSearch (renderFtQuery (ftClauses q)) (skipOfQ q) (limitOfQ q)
      (ftSortOf q).1 (ftSortOf q).2 = .error msg) :
    (findAllPublic env q).dbArgs
      = some (dbWhereOf q, limitOfQ q, skipOfQ q, dbOrderOf q) ∧
    (∀ e, env.dbQuery (dbWhereOf q) (limitOfQ q) (skipOfQ q) (dbOrderOf q) = .error e →
       (findAllPublic env q).result = .ok (emptyPage (pageOfQ q) (limitOfQ q), none)) ∧
    (∀ rows total e,
       env.dbQuery (dbWhereOf q) (limitOfQ q) (skipOfQ q) (dbOrderOf q) = .ok (rows, total) →
       mapDbRows env.jparse rows = .error e →
       (findAllPublic env q).result = .ok (emptyPage (pageOfQ q) (limitOfQ q), none)) ∧
    (∀ rows total mapped,
       env.dbQuery (dbWhereOf q) (limitOfQ q) (skipOfQ q) (dbOrderOf q) = .ok (rows, total) →
       mapDbRows env.jparse rows = .ok mapped →
       ((mapped = [] ∨ truthyS q.search = true) →
          (findAllPublic env q).result
            = .ok (dbPageOf mapped total (pageOfQ q) (limitOfQ q), none)) ∧
       (mapped ≠ [] → truthyS q.search = false →
          (env.cacheSet (cacheKeyOf env q) 60 = .ok () →
             (findAllPublic env q).result
               = .ok (dbPageOf mapped total (pageOfQ q) (limitOfQ q),
                      some { key := cacheKeyOf env q,
                             page := dbPageOf mapped total (pageOfQ q) (limitOfQ q),
                             ttl := 60 })) ∧
          (∀ e2, env.cacheSet (cacheKeyOf env q) 60 = .error e2 →
             (findAllPublic env q).result = .error e2))) ∧
    (q.minPrice ≠ some 0 → q.maxPrice ≠ some 0 →
       ∀ p : Int, ftPriceOk (ftClauses q) p = dbPriceOk (dbWhereOf q) p) ∧
    (∀ r : Int, ftRatingOk (ftClauses q) r = dbRatingOk (dbWhereOf q) r) ∧
    (q.sort ≠ some "newest" → dbOrderOf q = sortPairToDb (ftSortOf q)) := by
  have hred := findAllPublic_ftError env q msg huse herr
  refine ⟨?_, ?_, ?_, ?_, ?_, ?_, ?_⟩
  · rw [hred, dbPhase_dbArgs]
  · intro e hdb
    rw [hred]
    exact dbPhase_result_dbError env q _ _ _ _ _ e hdb
  · intro rows total e hdb hm
    rw [hred]
    exact dbPhase_result_mapError env q _ _ _ _ _ rows total e hdb hm
  · intro rows total mapped hdb hm
    refine ⟨?_, ?_⟩
    · intro hc
      rw [hred]
      exact dbPhase_result_noWrite env q _ _ _ _ _ rows total mapped hdb hm hc
    · intro hne hs
      refine ⟨?_, ?_⟩
      · intro hset
        rw [hred]
        exact dbPhase_result_write env q _ _ _ _ _ rows total mapped hdb hm hne hs hset
      · intro e2 hset
        rw [hred]
        exact dbPhase_result_writeError env q _ _ _ _ _ rows total mapped e2 hdb hm hne hs hset
  · exact fun hmin hmax p => price_translation q p hmin hmax
  · exact rating_translation q
  · exact sort_translation q

/-- Witness for C1: with both stores down, the tag-only request falls back
and returns the empty page without raising. -/
theorem C1_fallback_witness :
    (findAllPublic envBothFail qTagX).result = .ok (emptyPage 1 20, none) ∧
    (findAllPublic envBothFail qTagX).dbArgs
      = some (dbWhereOf qTagX, 20, 0, DbOrder.salesCountDesc) := by
  have h := C1_fallback envBothFail qTagX "Connection is closed." (by decide) rfl
  exact ⟨h.2.1 "db down" rfl, h.1⟩
